import Mathlib

/-!
# pyth-client: the JSON-RPC request dispatcher and the transfer codec

A shallow embedding of `src/pc/rpc_client.cpp`: the request registry of
`rpc_client` (slot array `rv_`, free list `reuse_`, counter `id_`,
subscription map `smap_`), the request variants with their `request`,
`response` and `notify` handlers, and the binary transfer transaction built
by `rpc::transfer::request`.

Request objects live outside the client and are referred to by address, so
the embedding keeps a heap of request objects next to the client members.
Caller callbacks (`rpc_sub_i<T>::on_response`) and the two transports are
external code: each call to them is recorded, in order, in a log.
The diagnostic writes to `std::cout` are not part of the model.
-/

namespace pc

/-! ## Value types -/

/-- One octet. -/
abbrev byte := Fin 256

/-- Modelled from the spec: the 32-byte value type `hash` (its class is declared
outside `rpc_client.cpp`); `pub_key` has the same layout. -/
structure hash where
  data : List byte
  len_ok : data.length = 32
deriving DecidableEq, Repr

/-- A public key is a 32-byte value. -/
abbrev pub_key := hash

/-- Modelled from the spec: the 64-byte value type `signature`. -/
structure signature where
  data : List byte
  len_ok : data.length = 64
deriving DecidableEq, Repr

/-- Modelled from the spec: a `key_pair` is a signing credential that exposes its
public key; `secret` stands for the private part of the key material. -/
structure key_pair where
  secret : List byte
  pub : pub_key
deriving DecidableEq, Repr

/-- Modelled from the spec: the call `hash::zero()` (outside `rpc_client.cpp`) sets
all 32 bytes to zero. -/
def hash.zero : hash := ⟨List.replicate 32 0, by simp⟩

/-- The function `gen_sys_id` of the source: a zeroed hash. -/
def gen_sys_id : hash := hash.zero

/-- The static `sys_id`, the system program id. -/
def sys_id : hash := gen_sys_id

/-- Modelled from the spec: the call `signature::init_from_buf` (outside
`rpc_client.cpp`) copies the 64 bytes at a buffer position; positions past the
written part of the buffer read as zero. -/
def signature.init_from_buf (l : List byte) : signature :=
  ⟨(l ++ List.replicate 64 0).take 64, by simp⟩

/-- The value a default-constructed `signature` is given in the model. -/
def signature.zero : signature := ⟨List.replicate 64 0, by simp⟩

/-- The enum `system_instruction` of the source, with its `uint32_t` values. -/
inductive system_instruction
  | e_create_account
  | e_assign
  | e_transfer
deriving DecidableEq, Repr

/-- The numeric value of a `system_instruction` enumerator. -/
def system_instruction.val : system_instruction → Nat
  | .e_create_account => 0
  | .e_assign => 1
  | .e_transfer => 2

/-! ## External collaborators -/

/-- Modelled from the spec: the routines that the request handlers call and whose
code is outside `rpc_client.cpp`. `sign kp msg` is the signature the key pair
produces over the byte span `msg` ("a signing credential capable of producing a
Signature over an arbitrary byte span"); a call in which the key pair produces no
signature is not described: what `bincode::sign` does then is decided outside
`rpc_client.cpp`, which looks at no result of the call. `dec_base58 txt h` is the
hash left in `h` after `h.dec_base58( txt )`. `net_buf_alloc i` is the byte at
offset `i` of `buf_` of the pooled buffer that `net_buf::alloc()` hands out,
whatever an earlier user of the buffer left there. -/
structure extern_fns where
  sign : key_pair → List byte → signature
  dec_base58 : String → hash → hash
  net_buf_alloc : Nat → byte

/-- Modelled from the spec: the JSON parse tree `jtree` of one parsed document
(its class is outside `rpc_client.cpp`), "token lookup by key path and typed field
extraction (unsigned integer, integer, boolean, text span)". Tokens are numbers,
token 1 is the document root and token 0 is the result of a failed lookup. The
statements below hold for every such tree; `get_uint` stands for a `uint64_t`
result. -/
structure jtree where
  find_val : Nat → String → Nat
  get_uint : Nat → Nat
  get_int : Nat → Int
  get_bool : Nat → Bool
  get_text : Nat → String

/-! ## The JSON writer -/

/-- Modelled from the spec: the calls made on the JSON writer `jwriter` while one
message is built ("structured object/array/key/value emission including
base64-encoded byte emission"). A message is the list of calls made since
`attach`; the writer turns it into text, which is outside this file. -/
inductive jw_call
  | add_val_obj
  | add_val_arr
  | add_key_str (key val : String)
  | add_key_uint (key : String) (val : Nat)
  | add_key_arr (key : String)
  | add_val_hash (val : hash)
  | add_val_sig (val : signature)
  | add_val_enc_base64 (buf : List byte)
  | pop
deriving DecidableEq, Repr

/-- The content of the writer buffer `jb_` up to `jw_.size()`. -/
abbrev jwriter := List jw_call

/-! ## The binary encoder -/

/-- Modelled from the spec: the encoder `bincode` (declared in `bincode.hpp`, which
is outside `rpc_client.cpp`) writes into the buffer it is constructed on. `buf`
holds the content of the buffer below the write position, so the write position
is `buf.length`; `mem` is the buffer as it was handed to the constructor, and
from the write position on the buffer still holds those bytes. -/
structure bincode where
  buf : List byte
  mem : Nat → byte

/-- The `n` low-order bytes of `v`, least significant first. -/
def le_bytes : Nat → Nat → List byte
  | 0, _ => []
  | n + 1, v => Fin.ofNat (v % 256) :: le_bytes n (v / 256)

/-- The value of a little-endian byte string. -/
def le_value : List byte → Nat
  | [] => 0
  | b :: bs => b.val + 256 * le_value bs

/-- Modelled from the spec: "the node's compact variable-length encoding for
counts": seven bits per byte, least significant group first, the high bit set on
every byte but the last. -/
def enc_len : Nat → Nat → List byte
  | 0, _ => []
  | fuel + 1, n =>
    if n < 128 then [Fin.ofNat n]
    else Fin.ofNat (n % 128 + 128) :: enc_len fuel (n / 128)

namespace bincode

/-- Modelled from the spec: a `bincode` constructed on the buffer with content
`mem`, nothing written yet. -/
def attach (mem : Nat → byte) : bincode := ⟨[], mem⟩

/-- Modelled from the spec: the call `get_pos()`, the write position. -/
def get_pos (tx : bincode) : Nat := tx.buf.length

/-- Modelled from the spec: the call `size()`, the number of bytes written. -/
def size (tx : bincode) : Nat := tx.buf.length

/-- Modelled from the spec: the call `get_buf()`, restricted to the bytes written. -/
def get_buf (tx : bincode) : List byte := tx.buf

/-- Modelled from the spec: the call `add_len<N>()` writes the count `N` as a
length prefix. -/
def add_len (N : Nat) (tx : bincode) : bincode := { tx with buf := tx.buf ++ enc_len 3 N }

/-- Modelled from the spec: the call `reserve_sign()` reserves the 64-byte
signature slot and returns where it starts: the write position moves 64 bytes on
and nothing is written, so until `sign` the slot holds what the buffer held. -/
def reserve_sign (tx : bincode) : Nat × bincode :=
  (tx.buf.length,
    { tx with buf := tx.buf ++ (List.range 64).map (fun i => tx.mem (tx.buf.length + i)) })

/-- Modelled from the spec: the call `add( uint8_t )` writes one byte. -/
def add_u8 (v : Nat) (tx : bincode) : bincode := { tx with buf := tx.buf ++ le_bytes 1 v }

/-- Modelled from the spec: the call `add( uint32_t )` writes 4 bytes,
little-endian. -/
def add_u32 (v : Nat) (tx : bincode) : bincode := { tx with buf := tx.buf ++ le_bytes 4 v }

/-- Modelled from the spec: the call `add( uint64_t )` writes 8 bytes,
little-endian. -/
def add_u64 (v : Nat) (tx : bincode) : bincode := { tx with buf := tx.buf ++ le_bytes 8 v }

/-- Modelled from the spec: the call `add( const hash& )`, also used for a
`pub_key`, writes the 32 bytes. -/
def add_hash (h : hash) (tx : bincode) : bincode := { tx with buf := tx.buf ++ h.data }

/-- Modelled from the spec: the call `add( snd_ )` on a key pair writes its public
key, the account address of the sender. -/
def add_key_pair (kp : key_pair) (tx : bincode) : bincode :=
  { tx with buf := tx.buf ++ kp.pub.data }

/-- Overwrites the bytes from position `i` on with `bs`. -/
def write_at (l : List byte) (i : Nat) (bs : List byte) : List byte :=
  l.take i ++ bs ++ l.drop (i + bs.length)

/-- Modelled from the spec: the call `sign( sig, msg, kp )` signs the bytes from
position `msg` to the write position with `kp` and writes the 64 bytes of the
signature at position `sig` ("the codec signs that exact byte range with the
sender's key pair and writes the signature into the reserved slot"). -/
def sign (X : extern_fns) (sig msg : Nat) (kp : key_pair) (tx : bincode) : bincode :=
  { tx with buf := write_at tx.buf sig (X.sign kp (tx.buf.drop msg)).data }

end bincode

/-! ## Request objects -/

/-- The request classes of the source; `T` in `on_response<T>` and `on_error<T>`
ranges over them. -/
inductive req_kind
  | get_account_info
  | get_recent_block_hash
  | get_health
  | transfer
  | signature_subscribe
deriving DecidableEq, Repr

/-- A callback object `rpc_sub`: `addr` tells callback objects apart and `ifaces`
lists the classes `T` for which `dynamic_cast<rpc_sub_i<T>*>` succeeds on it. -/
structure rpc_sub where
  addr : Nat
  ifaces : List req_kind
deriving DecidableEq, Repr

namespace rpc

/-- Members of `rpc::get_account_info`; `data_` and `owner_` are the text spans
`(dptr_, dlen_)` and `(optr_, olen_)`. -/
structure get_account_info where
  acc_ : pub_key
  slot_ : Nat
  lamports_ : Nat
  rent_epoch_ : Nat
  data_ : String
  owner_ : String
  is_exec_ : Bool
deriving DecidableEq, Repr

/-- Members of `rpc::get_recent_block_hash`. -/
structure get_recent_block_hash where
  slot_ : Nat
  bhash_ : hash
  fee_per_sig_ : Nat
deriving DecidableEq, Repr

/-- Members of `rpc::transfer`. -/
structure transfer where
  bhash_ : hash
  snd_ : key_pair
  rcv_ : pub_key
  lamports_ : Nat
  sig_ : signature
deriving DecidableEq, Repr

/-- Members of `rpc::signature_subscribe`. -/
structure signature_subscribe where
  sig_ : signature
deriving DecidableEq, Repr

end rpc

/-- The members a request class adds to `rpc_request`. -/
inductive rpc_variant
  | get_account_info (d : rpc.get_account_info)
  | get_recent_block_hash (d : rpc.get_recent_block_hash)
  | get_health
  | transfer (d : rpc.transfer)
  | signature_subscribe (d : rpc.signature_subscribe)
deriving DecidableEq, Repr

/-- A request object: the members of the base class `rpc_request` and those of its
class. `cp_` tells whether the back-reference to the client is set. -/
structure rpc_request where
  cb_ : Option rpc_sub
  cp_ : Bool
  id_ : Nat
  ec_ : Int
  emsg_ : String
  var : rpc_variant
deriving DecidableEq, Repr

/-- The class of a request object. -/
def rpc_request.kind (r : rpc_request) : req_kind :=
  match r.var with
  | .get_account_info _ => .get_account_info
  | .get_recent_block_hash _ => .get_recent_block_hash
  | .get_health => .get_health
  | .transfer _ => .transfer
  | .signature_subscribe _ => .signature_subscribe

/-- The constructor `rpc_request::rpc_request` followed by the constructor of the
class: no callback, no client, id 0, error code 0. -/
def rpc_request.mk_new (v : rpc_variant) : rpc_request :=
  ⟨none, false, 0, 0, "", v⟩

/-- The constructor `rpc::get_account_info::get_account_info`. -/
def rpc.get_account_info.mk_new (acc : pub_key) : rpc.get_account_info :=
  ⟨acc, 0, 0, 0, "", "", false⟩

/-- The constructor `rpc::get_recent_block_hash::get_recent_block_hash`. -/
def rpc.get_recent_block_hash.mk_new : rpc.get_recent_block_hash :=
  ⟨0, hash.zero, 0⟩

/-- Conversion of an integer to the 32-bit `int` that `set_err_code` takes. -/
def to_int (v : Int) : Int := (v + 2 ^ 31) % 2 ^ 32 - 2 ^ 31

namespace rpc_request

/-- The call `set_id`. -/
def set_id (id : Nat) (r : rpc_request) : rpc_request := { r with id_ := id }

/-- The call `get_id`. -/
def get_id (r : rpc_request) : Nat := r.id_

/-- The call `set_rpc_client( this )`. -/
def set_rpc_client (r : rpc_request) : rpc_request := { r with cp_ := true }

/-- The call `set_err_code`. -/
def set_err_code (ecode : Int) (r : rpc_request) : rpc_request :=
  { r with ec_ := to_int ecode }

/-- The call `get_err_code`. -/
def get_err_code (r : rpc_request) : Int := r.ec_

/-- Modelled from the spec: the call `set_err_msg` (defined outside
`rpc_client.cpp`) stores the message on the request. -/
def set_err_msg (emsg : String) (r : rpc_request) : rpc_request :=
  { r with emsg_ := emsg }

/-- The virtual `get_is_http`: `rpc_subscription` overrides it to `false`. -/
def get_is_http (r : rpc_request) : Bool :=
  match r.var with
  | .signature_subscribe _ => false
  | _ => true

end rpc_request

/-- The message `send` builds for the HTTP connection. -/
structure http_request where
  method : String
  target : String
  hdrs : List (String × String)
  content : jwriter
deriving DecidableEq, Repr

/-- The frame `send` builds for the websocket connection: `text_id` tells whether
the opcode is `ws_wtr::text_id`, `mask` is the last argument of `commit`. -/
structure ws_wtr where
  text_id : Bool
  payload : jwriter
  mask : Bool
deriving DecidableEq, Repr

/-- Calls into code outside the client, in the order they are made: messages handed
to the two connections, the virtual handlers a document is routed to, and caller
callbacks (with the state of the request object at the time of the call). -/
inductive event
  | http_add_send (msg : http_request)
  | ws_add_send (msg : ws_wtr)
  | response (rptr : Nat)
  | notify (rptr : Nat)
  | on_response (cb : rpc_sub) (rptr : Nat) (req : rpc_request)
deriving DecidableEq, Repr

/-! ## The client -/

/-- The members of `rpc_client` (`hptr_`, `wptr_`: whether a connection is set),
the request objects by address, and the log of external calls. -/
structure World where
  hptr_ : Bool
  wptr_ : Bool
  id_ : Nat
  rv_ : List (Option Nat)
  reuse_ : List Nat
  smap_ : List (Nat × Nat)
  jw_ : jwriter
  heap : Nat → rpc_request
  log : List event

/-- The constructor `rpc_client::rpc_client`, next to the request objects `h`. -/
def rpc_client.mk_new (h : Nat → rpc_request) : World :=
  ⟨false, false, 0, [], [], [], [], h, []⟩

namespace World

/-- Replaces the request object at address `rptr`. -/
def store (rptr : Nat) (r : rpc_request) (w : World) : World :=
  { w with heap := fun p => if p = rptr then r else w.heap p }

/-- Appends a call to the log. -/
def emit (e : event) (w : World) : World := { w with log := w.log ++ [e] }

end World

/-- The largest size `std::vector<rpc_request*>` accepts: `max_size()` for 8-byte
elements, `PTRDIFF_MAX / 8`. A `resize` beyond it throws `std::length_error`; the
proofs below use of this bound only that it is positive and below `2 ^ 64 - 1`. -/
def vector_max_size : Nat := 2 ^ 60 - 1

/-- The call `std::vector::resize( n, v )`. -/
def resize {α : Type} (l : List α) (n : Nat) (v : α) : List α :=
  l.take n ++ List.replicate (n - l.length) v

/-- The lookup `smap_.find( id )`. -/
def smap_find (m : List (Nat × Nat)) (id : Nat) : Option Nat :=
  (m.find? (fun e => e.1 = id)).map (fun e => e.2)

/-- The call `smap_.erase( i )` for the entry with key `id`. -/
def smap_erase (m : List (Nat × Nat)) (id : Nat) : List (Nat × Nat) :=
  m.filter (fun e => e.1 ≠ id)

/-- The assignment `smap_[id] = rptr`. -/
def smap_set (m : List (Nat × Nat)) (id rptr : Nat) : List (Nat × Nat) :=
  smap_erase m id ++ [(id, rptr)]

/-! ## Handlers of the request classes -/

/-- The template `rpc_request::on_response<T>( req )`: the callback is called when
the request has one that casts to `rpc_sub_i<T>`. -/
def on_response (T : req_kind) (rptr : Nat) (w : World) : World :=
  match (w.heap rptr).cb_ with
  | some cb =>
    if T ∈ cb.ifaces then w.emit (event.on_response cb rptr (w.heap rptr)) else w
  | none => w

/-- The template `rpc_request::on_error<T>( jt, req )`. -/
def on_error (jt : jtree) (T : req_kind) (rptr : Nat) (w : World) : Bool × World :=
  let etok := jt.find_val 1 "error"
  if etok = 0 then (false, w)
  else
    let emsg := jt.get_text (jt.find_val etok "message")
    let w1 := w.store rptr ((w.heap rptr).set_err_msg emsg)
    let w2 := w1.store rptr
      ((w1.heap rptr).set_err_code (jt.get_int (jt.find_val etok "code")))
    (true, on_response T rptr w2)

/-- The call `rpc_client::add_notify( rptr )`. -/
def rpc_client.add_notify (rptr : Nat) (w : World) : World :=
  { w with smap_ := smap_set w.smap_ (w.heap rptr).get_id rptr }

/-- The call `rpc_client::remove_notify( rptr )`. -/
def rpc_client.remove_notify (rptr : Nat) (w : World) : World :=
  match smap_find w.smap_ (w.heap rptr).get_id with
  | some _ => { w with smap_ := smap_erase w.smap_ (w.heap rptr).get_id }
  | none => w

/-- The call `rpc_subscription::add_notify( jp )` on the request at `rptr`. -/
def rpc_subscription.add_notify (jp : jtree) (rptr : Nat) (w : World) : World :=
  let rtok := jp.find_val 1 "result"
  if rtok ≠ 0 then
    let subid := jp.get_uint rtok
    let w1 := w.store rptr ((w.heap rptr).set_id subid)
    rpc_client.add_notify rptr w1
  else w

/-- The call `rpc_subscription::remove_notify()` on the request at `rptr`. -/
def rpc_subscription.remove_notify (rptr : Nat) (w : World) : World :=
  rpc_client.remove_notify rptr w

/-- The handler `rpc::get_account_info::response`. -/
def rpc.get_account_info.response (jt : jtree) (rptr : Nat) (d : rpc.get_account_info)
    (w : World) : World :=
  let (err, w1) := on_error jt .get_account_info rptr w
  if err then w1
  else
    let rtok := jt.find_val 1 "result"
    let ctok := jt.find_val rtok "context"
    let d := { d with slot_ := jt.get_uint (jt.find_val ctok "slot") }
    let vtok := jt.find_val rtok "value"
    let d := { d with is_exec_ := jt.get_bool (jt.find_val vtok "executable") }
    let d := { d with lamports_ := jt.get_uint (jt.find_val vtok "lamports") }
    let d := { d with data_ := jt.get_text (jt.find_val vtok "data") }
    let d := { d with owner_ := jt.get_text (jt.find_val vtok "owner") }
    let d := { d with rent_epoch_ := jt.get_uint (jt.find_val vtok "rentEpoch") }
    let w2 := w1.store rptr { w1.heap rptr with var := .get_account_info d }
    on_response .get_account_info rptr w2

/-- The handler `rpc::get_recent_block_hash::response`. -/
def rpc.get_recent_block_hash.response (X : extern_fns) (jt : jtree) (rptr : Nat)
    (d : rpc.get_recent_block_hash) (w : World) : World :=
  let (err, w1) := on_error jt .get_recent_block_hash rptr w
  if err then w1
  else
    let rtok := jt.find_val 1 "result"
    let ctok := jt.find_val rtok "context"
    let d := { d with slot_ := jt.get_uint (jt.find_val ctok "slot") }
    let vtok := jt.find_val rtok "value"
    let txt := jt.get_text (jt.find_val vtok "blockhash")
    let d := { d with bhash_ := X.dec_base58 txt d.bhash_ }
    let ftok := jt.find_val vtok "feeCalculator"
    let d := { d with fee_per_sig_ := jt.get_uint (jt.find_val ftok "lamportsPerSignature") }
    let w2 := w1.store rptr { w1.heap rptr with var := .get_recent_block_hash d }
    on_response .get_recent_block_hash rptr w2

/-- The handler `rpc::get_health::response`. -/
def rpc.get_health.response (jt : jtree) (rptr : Nat) (w : World) : World :=
  let (err, w1) := on_error jt .get_health rptr w
  if err then w1 else on_response .get_health rptr w1

/-- The handler `rpc::transfer::response`. -/
def rpc.transfer.response (jt : jtree) (rptr : Nat) (w : World) : World :=
  let (err, w1) := on_error jt .transfer rptr w
  if err then w1 else on_response .transfer rptr w1

/-- The handler `rpc::signature_subscribe::response`. -/
def rpc.signature_subscribe.response (jt : jtree) (rptr : Nat) (w : World) : World :=
  let (err, w1) := on_error jt .signature_subscribe rptr w
  if err then w1 else rpc_subscription.add_notify jt rptr w1

/-- The handler `rpc::signature_subscribe::notify`. -/
def rpc.signature_subscribe.notify (jt : jtree) (rptr : Nat) (w : World) : Bool × World :=
  let (err, w1) := on_error jt .signature_subscribe rptr w
  if err then (true, w1) else (true, on_response .signature_subscribe rptr w1)

/-- The virtual call `rptr->response( jp_ )`. -/
def rpc_request.response (X : extern_fns) (jt : jtree) (rptr : Nat) (w : World) : World :=
  let w := w.emit (event.response rptr)
  match (w.heap rptr).var with
  | .get_account_info d => rpc.get_account_info.response jt rptr d w
  | .get_recent_block_hash d => rpc.get_recent_block_hash.response X jt rptr d w
  | .get_health => rpc.get_health.response jt rptr w
  | .transfer _ => rpc.transfer.response jt rptr w
  | .signature_subscribe _ => rpc.signature_subscribe.response jt rptr w

/-- The virtual call `rptr->notify( jp_ )`: `rpc_request::notify` returns `true`,
`rpc::signature_subscribe` overrides it. -/
def rpc_request.notify (jt : jtree) (rptr : Nat) (w : World) : Bool × World :=
  let w := w.emit (event.notify rptr)
  match (w.heap rptr).var with
  | .signature_subscribe _ => rpc.signature_subscribe.notify jt rptr w
  | _ => (true, w)

/-! ## Building a request message -/

/-- The transaction `rpc::transfer::request` builds in its `bincode`, constructed on
the buffer that `net_buf::alloc()` hands out, after the call to `sign`. -/
def rpc.transfer.build_tx (X : extern_fns) (d : rpc.transfer) : bincode :=
  let tx := bincode.attach X.net_buf_alloc
  -- signatures section
  let tx := tx.add_len 1
  let (sign_idx, tx) := tx.reserve_sign
  -- message header
  let tx_idx := tx.get_pos
  let tx := tx.add_u8 1
  let tx := tx.add_u8 0
  let tx := tx.add_u8 1
  -- accounts
  let tx := tx.add_len 3
  let tx := tx.add_key_pair d.snd_
  let tx := tx.add_hash d.rcv_
  let tx := tx.add_hash sys_id
  -- recent block hash
  let tx := tx.add_hash d.bhash_
  -- instructions section
  let tx := tx.add_len 1
  let tx := tx.add_u8 2
  let tx := tx.add_len 2
  let tx := tx.add_u8 0
  let tx := tx.add_u8 1
  -- instruction parameter section
  let tx := tx.add_len 12
  let tx := tx.add_u32 system_instruction.e_transfer.val
  let tx := tx.add_u64 d.lamports_
  -- sign message
  tx.sign X sign_idx tx_idx d.snd_

/-- The position `sign_idx` that `reserve_sign` returns in `rpc::transfer::request`. -/
def rpc.transfer.sign_idx (X : extern_fns) : Nat :=
  (((bincode.attach X.net_buf_alloc).add_len 1).reserve_sign).1

/-- The method `rpc::transfer::request`: the request object afterwards and the
message with the calls appended. -/
def rpc.transfer.request (X : extern_fns) (d : rpc.transfer) (msg : jwriter) :
    rpc.transfer × jwriter :=
  let tx := rpc.transfer.build_tx X d
  let d := { d with sig_ := signature.init_from_buf (tx.get_buf.drop (rpc.transfer.sign_idx X)) }
  let msg := msg ++ [jw_call.add_key_str "method" "sendTransaction"]
  let msg := msg ++ [jw_call.add_key_arr "params"]
  let msg := msg ++ [jw_call.add_val_enc_base64 (tx.get_buf.take tx.size)]
  let msg := msg ++ [jw_call.add_val_obj]
  let msg := msg ++ [jw_call.add_key_str "encoding" "base64"]
  let msg := msg ++ [jw_call.pop]
  let msg := msg ++ [jw_call.pop]
  (d, msg)

/-- The virtual call `rptr->request( jw_ )`. -/
def rpc_request.request (X : extern_fns) (r : rpc_request) (msg : jwriter) :
    rpc_request × jwriter :=
  match r.var with
  | .get_account_info d =>
    (r, msg ++ [jw_call.add_key_str "method" "getAccountInfo", jw_call.add_key_arr "params",
      jw_call.add_val_hash d.acc_, jw_call.pop])
  | .get_recent_block_hash _ => (r, msg ++ [jw_call.add_key_str "method" "getRecentBlockhash"])
  | .get_health => (r, msg ++ [jw_call.add_key_str "method" "getHealth"])
  | .transfer d =>
    let (d1, msg1) := rpc.transfer.request X d msg
    ({ r with var := .transfer d1 }, msg1)
  | .signature_subscribe d =>
    (r, msg ++ [jw_call.add_key_str "method" "signatureSubscribe", jw_call.add_key_arr "params",
      jw_call.add_val_sig d.sig_, jw_call.pop])

/-! ## Operations of the client -/

namespace rpc_client

/-- The call `set_http_conn`. -/
def set_http_conn (w : World) : World := { w with hptr_ := true }

/-- The call `set_ws_conn`. -/
def set_ws_conn (w : World) : World := { w with wptr_ := true }

/-- The id `add_request` picks, with the registry members after the first block of
`add_request` (lines "get request id"): the last entry of `reuse_` when there is
one, else the incremented counter, for which `rv_` is resized. `none` stands for
the `std::length_error` of a `resize` beyond `vector_max_size`. -/
def get_request_id (w : World) : Option (Nat × World) :=
  if w.reuse_ ≠ [] then
    some (w.reuse_.getLast?.getD 0, { w with reuse_ := w.reuse_.dropLast })
  else
    let id := (w.id_ + 1) % 2 ^ 64
    let n := (1 + id) % 2 ^ 64
    if n ≤ vector_max_size then
      some (id, { w with id_ := id, rv_ := resize w.rv_ n none })
    else none

/-- The call `rpc_client::add_request( rptr )`. -/
def add_request (X : extern_fns) (rptr : Nat) (w : World) : Option World :=
  match get_request_id w with
  | none => none
  | some (id, w) =>
    let w := w.store rptr ((w.heap rptr).set_id id)
    let w := w.store rptr (w.heap rptr).set_rpc_client
    let w := { w with rv_ := w.rv_.set id (some rptr) }
    -- construct json message
    let jw : jwriter := []
    let jw := jw ++ [jw_call.add_val_obj]
    let jw := jw ++ [jw_call.add_key_str "jsonrpc" "2.0"]
    let jw := jw ++ [jw_call.add_key_uint "id" id]
    let (r, jw) := (w.heap rptr).request X jw
    let w := w.store rptr r
    let jw := jw ++ [jw_call.pop]
    some { w with jw_ := jw }

/-- The call `rpc_client::send( rptr )`; `none` also when the connection the
message goes to has not been set. -/
def send (X : extern_fns) (rptr : Nat) (w : World) : Option World :=
  match add_request X rptr w with
  | none => none
  | some w =>
    if (w.heap rptr).get_is_http then
      if w.hptr_ then
        some (w.emit (event.http_add_send
          ⟨"POST", "/", [("Content-Type", "application/json")], w.jw_⟩))
      else none
    else
      if w.wptr_ then some (w.emit (event.ws_add_send ⟨true, w.jw_, true⟩))
      else none

/-- The call `rpc_client::parse_response`, on the parse tree `jp` that `jp_.parse`
leaves for the text received. -/
def parse_response (X : extern_fns) (jp : jtree) (w : World) : World :=
  let idtok := jp.find_val 1 "id"
  if idtok ≠ 0 then
    -- response to http request
    let id := jp.get_uint idtok
    if id < w.rv_.length then
      match w.rv_.getD id none with
      | some rptr =>
        let w := { w with rv_ := w.rv_.set id none }
        let w := { w with reuse_ := w.reuse_ ++ [id] }
        rpc_request.response X jp rptr w
      | none => w
    else w
  else
    -- websocket notification
    let ptok := jp.find_val 1 "params"
    let stok := jp.find_val ptok "subscription"
    if stok ≠ 0 then
      let id := jp.get_uint stok
      match smap_find w.smap_ id with
      | some rptr =>
        let (rm, w) := rpc_request.notify jp rptr w
        if rm then { w with smap_ := smap_erase w.smap_ id } else w
      | none => w
    else w

end rpc_client

/-! ## Reachable states -/

/-- One operation on the client or on a request object: the public calls of
`rpc_client`, and `write`, by which the caller constructs or changes a request
object it owns. -/
inductive op
  | set_http_conn
  | set_ws_conn
  | send (rptr : Nat)
  | add_request (rptr : Nat)
  | parse_response (jp : jtree)
  | add_notify (rptr : Nat)
  | remove_notify (rptr : Nat)
  | write (rptr : Nat) (r : rpc_request)

/-- The state after an operation, `none` when the operation does not return. -/
def op.run (X : extern_fns) : op → World → Option World
  | .set_http_conn, w => some (rpc_client.set_http_conn w)
  | .set_ws_conn, w => some (rpc_client.set_ws_conn w)
  | .send rptr, w => rpc_client.send X rptr w
  | .add_request rptr, w => rpc_client.add_request X rptr w
  | .parse_response jp, w => some (rpc_client.parse_response X jp w)
  | .add_notify rptr, w => some (rpc_client.add_notify rptr w)
  | .remove_notify rptr, w => some (rpc_client.remove_notify rptr w)
  | .write rptr r, w => some (w.store rptr r)

/-- The state after a sequence of operations, `none` when one of them does not
return. -/
def run_ops (X : extern_fns) : List op → World → Option World
  | [], w => some w
  | o :: os, w =>
    match o.run X w with
    | some w1 => run_ops X os w1
    | none => none

/-- The states a freshly constructed client reaches by operations that return. -/
def reachable (X : extern_fns) (w : World) : Prop :=
  ∃ (h : Nat → rpc_request) (os : List op), run_ops X os (rpc_client.mk_new h) = some w

/-! ## The registry and its well-formedness -/

/-- The members of the client that make up the request registry and the
connections. -/
def World.registry (w : World) : Bool × Bool × Nat × List (Option Nat) × List Nat :=
  (w.hptr_, w.wptr_, w.id_, w.rv_, w.reuse_)

/-- Well-formedness of the request registry: the slot array has one slot per id
handed out so far plus the unused slot 0, and the free list holds, once each,
exactly the ids in `1..id_` whose slot is empty. -/
structure registry_ok (w : World) : Prop where
  len : w.rv_.length = if w.id_ = 0 then 0 else w.id_ + 1
  bound : w.id_ + 1 ≤ vector_max_size
  zero : w.rv_.getD 0 none = none
  free_range : ∀ i ∈ w.reuse_, 1 ≤ i ∧ i ≤ w.id_
  free_empty : ∀ i ∈ w.reuse_, w.rv_.getD i none = none
  nodup : w.reuse_.Nodup
  empty_free : ∀ i, 1 ≤ i → i ≤ w.id_ → w.rv_.getD i none = none → i ∈ w.reuse_

/-! ## Notions used in the statements -/

/-- The log of `w2` is the log of `w` followed by calls of the callback of the
request at `rptr` only. -/
def only_callbacks (rptr : Nat) (w w2 : World) : Prop :=
  ∃ cbs, w2.log = w.log ++ cbs ∧ ∀ e ∈ cbs, ∃ cb q, e = event.on_response cb rptr q

/-- The byte strings a message passes to `add_val_enc_base64`, in order. -/
def enc_base64_params (msg : jwriter) : List (List byte) :=
  msg.filterMap (fun c => match c with
    | .add_val_enc_base64 buf => some buf
    | _ => none)

/-- The calls `on_response<T>` adds to the log for the request at `rptr`: one call
of its callback, with the request object as it is then, when the callback casts to
`rpc_sub_i<T>`; none otherwise. -/
def cb_events (T : req_kind) (rptr : Nat) (w : World) : List event :=
  match (w.heap rptr).cb_ with
  | some cb => if T ∈ cb.ifaces then [event.on_response cb rptr (w.heap rptr)] else []
  | none => []

/-- Whether a logged call is a call of a caller callback. -/
def event.is_callback : event → Bool
  | .on_response _ _ _ => true
  | _ => false

/-- The error code a callback finds on the request it is called with; `none` for a
logged call that is not a callback. -/
def event.cb_err_code : event → Option Int
  | .on_response _ _ req => some req.get_err_code
  | _ => none

/-- The values a document of the shape
`{"result":{"context":{"slot":s},"value":{"executable":e,"lamports":l,"data":d,
"owner":o,"rentEpoch":p}}}` without `error` yields to the lookups and typed reads
of `rpc::get_account_info::response`. -/
def account_info_doc (jt : jtree) (s : Nat) (e : Bool) (l : Nat) (d o : String) (p : Nat) :
    Prop :=
  jt.find_val 1 "error" = 0 ∧
  jt.get_uint (jt.find_val (jt.find_val (jt.find_val 1 "result") "context") "slot") = s ∧
  jt.get_bool (jt.find_val (jt.find_val (jt.find_val 1 "result") "value") "executable") = e ∧
  jt.get_uint (jt.find_val (jt.find_val (jt.find_val 1 "result") "value") "lamports") = l ∧
  jt.get_text (jt.find_val (jt.find_val (jt.find_val 1 "result") "value") "data") = d ∧
  jt.get_text (jt.find_val (jt.find_val (jt.find_val 1 "result") "value") "owner") = o ∧
  jt.get_uint (jt.find_val (jt.find_val (jt.find_val 1 "result") "value") "rentEpoch") = p

/-- What the getters of `rpc::get_account_info` return: `get_slot`,
`get_is_executable`, `get_lamports`, `get_data`, `get_owner`, `get_rent_epoch`. -/
structure account_info_values where
  slot : Nat
  is_executable : Bool
  lamports : Nat
  data : String
  owner : String
  rent_epoch : Nat
deriving DecidableEq, Repr

/-- The getters of `rpc::get_account_info` on a request object; `none` for a request
of another class. -/
def rpc_request.account_info_getters (r : rpc_request) : Option account_info_values :=
  match r.var with
  | .get_account_info d =>
    some ⟨d.slot_, d.is_exec_, d.lamports_, d.data_, d.owner_, d.rent_epoch_⟩
  | _ => none

/-- What the getters of `rpc::get_account_info` return to a callback on the request
it is called with; `none` for a logged call that is not a callback. -/
def event.cb_account_info : event → Option account_info_values
  | .on_response _ _ req => req.account_info_getters
  | _ => none

/-- The number of occupied slots of a slot array. -/
def occupied (rv : List (Option Nat)) : Nat := rv.countP (fun s => s.isSome)

/-- Occupied slots and free ids together are the ids handed out so far. -/
def count_ok (w : World) : Prop := occupied w.rv_ + w.reuse_.length = w.id_

/-! ## Example data -/

/-- A node of a parsed document, for writing down example documents: the members
of an object by key, and what each typed read of the node yields. -/
structure jnode where
  kids : List (String × Nat) := []
  uint : Nat := 0
  int : Int := 0
  bool : Bool := false
  text : String := ""
deriving DecidableEq, Repr

/-- The node of token `t` in the table `ns`: token `t` is entry `t - 1`, token 0
and tokens past the table are a node without members. -/
def jnode.at (ns : List jnode) (t : Nat) : jnode :=
  if t = 0 then {} else ns.getD (t - 1) {}

/-- The parse tree of the document with node table `ns`. -/
def jtree.of_nodes (ns : List jnode) : jtree where
  find_val t key := (((jnode.at ns t).kids.find? (fun e => e.1 = key)).map (fun e => e.2)).getD 0
  get_uint t := (jnode.at ns t).uint
  get_int t := (jnode.at ns t).int
  get_bool t := (jnode.at ns t).bool
  get_text t := (jnode.at ns t).text

/-- Example collaborators: a key pair signs with the first 64 bytes of secret and
message; base58 decoding leaves the hash as it is; the pooled buffer comes zeroed. -/
def ex_extern : extern_fns where
  sign kp msg := signature.init_from_buf (kp.secret ++ msg)
  dec_base58 _ h := h
  net_buf_alloc _ := 0

/-- An example key pair. -/
def ex_key : key_pair := ⟨[7, 7, 7], hash.zero⟩

/-- A second example key pair, with an empty secret. -/
def ex_key_empty : key_pair := ⟨[], hash.zero⟩

/-- The transfer at address 4 of `ex_heap`: 5 lamports, sent with `ex_key_empty`. -/
def ex_small_transfer : rpc.transfer := ⟨hash.zero, ex_key_empty, hash.zero, 5, signature.zero⟩

/-- Example request objects: a health query at address 0, a signature subscription
at address 1, an account query with a callback at address 2, a transfer of 5
lamports at address 4, a health query whose callback object
implements `rpc_sub_i<get_account_info>` only at address 6, and transfers of 258
lamports signed with `ex_key` elsewhere. -/
def ex_heap : Nat → rpc_request := fun p =>
  if p = 0 then rpc_request.mk_new .get_health
  else if p = 1 then rpc_request.mk_new (.signature_subscribe ⟨signature.zero⟩)
  else if p = 2 then
    { rpc_request.mk_new (.get_account_info (rpc.get_account_info.mk_new hash.zero)) with
      cb_ := some ⟨100, [.get_account_info]⟩ }
  else if p = 4 then rpc_request.mk_new (.transfer ex_small_transfer)
  else if p = 6 then
    { rpc_request.mk_new .get_health with cb_ := some ⟨101, [.get_account_info]⟩ }
  else rpc_request.mk_new (.transfer ⟨hash.zero, ex_key, hash.zero, 258, signature.zero⟩)

/-- The document `{"id":n}`. -/
def ex_doc_id (n : Nat) : jtree :=
  jtree.of_nodes [{ kids := [("id", 2)] }, { uint := n }]

/-- The state after attaching the HTTP connection, submitting the requests at
addresses 0, 2 and 3, and receiving `{"id":2}`: ids 1 and 3 are outstanding, id 2
is on the free list. -/
def ex_world : World :=
  (run_ops ex_extern
    [.set_http_conn, .send 0, .send 2, .send 3, .parse_response (ex_doc_id 2)]
    (rpc_client.mk_new ex_heap)).getD (rpc_client.mk_new ex_heap)

/-- The document `{"id":1,"error":{"code":-32602,"message":"invalid params"}}`. -/
def ex_doc_error : jtree :=
  jtree.of_nodes [{ kids := [("id", 2), ("error", 3)] }, { uint := 1 },
    { kids := [("code", 4), ("message", 5)] }, { int := -32602 }, { text := "invalid params" }]

/-- The state after attaching the HTTP connection and submitting the health query
at address 6, which holds id 1. -/
def ex_world_health : World :=
  (run_ops ex_extern [.set_http_conn, .send 6] (rpc_client.mk_new ex_heap)).getD
    (rpc_client.mk_new ex_heap)

/-- The state after attaching the HTTP connection and submitting the account query
at address 2, which holds id 1. -/
def ex_world_account : World :=
  (run_ops ex_extern [.set_http_conn, .send 2] (rpc_client.mk_new ex_heap)).getD
    (rpc_client.mk_new ex_heap)

/-- Example request objects for subscriptions: signature subscriptions with a
callback object of their own interface at addresses 0 and 1, an account query with
a callback at address 2, and signature subscriptions without callback elsewhere. -/
def ex_heap_sub : Nat → rpc_request := fun p =>
  if p = 0 then
    { rpc_request.mk_new (.signature_subscribe ⟨signature.zero⟩) with
      cb_ := some ⟨200, [.signature_subscribe]⟩ }
  else if p = 1 then
    { rpc_request.mk_new (.signature_subscribe ⟨signature.zero⟩) with
      cb_ := some ⟨201, [.signature_subscribe]⟩ }
  else if p = 2 then
    { rpc_request.mk_new (.get_account_info (rpc.get_account_info.mk_new hash.zero)) with
      cb_ := some ⟨202, [.get_account_info]⟩ }
  else rpc_request.mk_new (.signature_subscribe ⟨signature.zero⟩)

/-- A fresh client next to `ex_heap_sub`, with both connections set. -/
def ex_client_sub : World :=
  rpc_client.set_ws_conn (rpc_client.set_http_conn (rpc_client.mk_new ex_heap_sub))

/-- The document `{"id":2,"result":55}`. -/
def ex_doc_subscribed : jtree :=
  jtree.of_nodes [{ kids := [("id", 2), ("result", 3)] }, { uint := 2 }, { uint := 55 }]

/-- The state after the account query at address 2 and the signature subscription
at address 0 have been sent on `ex_client_sub`: they hold request ids 1 and 2. -/
def ex_world_sub : World :=
  (run_ops ex_extern [.send 2, .send 0] ex_client_sub).getD ex_client_sub

/-- The document `{"params":{"subscription":55,"result":{"err":null}}}`. -/
def ex_doc_notify : jtree :=
  jtree.of_nodes [{ kids := [("params", 2)] }, { kids := [("subscription", 3), ("result", 4)] },
    { uint := 55 }, { kids := [("err", 5)] }, { text := "null" }]

/-- The state after `{"id":2,"result":55}` has been received in `ex_world_sub`: the
subscription map holds subscription 55 for the request at address 0. -/
def ex_world_subscribed : World :=
  rpc_client.parse_response ex_extern ex_doc_subscribed ex_world_sub

/-- The document
`{"params":{"subscription":55,"result":{"err":{"InstructionError":"Custom"}}}}`: a
notification whose result reports that the transaction failed. -/
def ex_doc_notify_failed : jtree :=
  jtree.of_nodes [{ kids := [("params", 2)] }, { kids := [("subscription", 3), ("result", 4)] },
    { uint := 55 }, { kids := [("err", 5)] }, { kids := [("InstructionError", 6)] },
    { text := "Custom" }]

/-- The document `{"id":1,"result":1}`: the server assigns subscription id 1. -/
def ex_doc_subscribed_one : jtree :=
  jtree.of_nodes [{ kids := [("id", 2), ("result", 3)] }, { uint := 1 }, { uint := 1 }]

/-- The state in which the subscription at address 0 is registered under
subscription id 1 and the subscription at address 1 has been sent and holds
request id 1, its response still outstanding: the first is sent and answered by
`{"id":1,"result":1}`, then the second is sent and is assigned the freed id 1. -/
def ex_world_pending : World :=
  (run_ops ex_extern [.send 0, .parse_response ex_doc_subscribed_one, .send 1]
    ex_client_sub).getD ex_client_sub

/-- The document `{"id":1,"result":{"context":{"slot":100},"value":{"executable":false,
"lamports":500,"data":"...","owner":"...","rentEpoch":3}}}`. -/
def ex_doc_account : jtree :=
  jtree.of_nodes [{ kids := [("id", 2), ("result", 3)] }, { uint := 1 },
    { kids := [("context", 4), ("value", 6)] }, { kids := [("slot", 5)] }, { uint := 100 },
    { kids := [("executable", 7), ("lamports", 8), ("data", 9), ("owner", 10),
        ("rentEpoch", 11)] },
    { bool := false }, { uint := 500 }, { text := "..." }, { text := "..." }, { uint := 3 }]

/-- The state after the signature subscription at address 3, which has no callback
object, has been sent on `ex_client_sub`: it holds request id 1. -/
def ex_world_sub_plain : World :=
  (rpc_client.send ex_extern 3 ex_client_sub).getD ex_client_sub

/-- The state after attaching the HTTP connection, submitting the account query at
address 2, receiving the error document `ex_doc_error` for it and submitting the
same request object again: it holds id 1 again and carries error code -32602. -/
def ex_world_reused : World :=
  (run_ops ex_extern [.set_http_conn, .send 2, .parse_response ex_doc_error, .send 2]
    (rpc_client.mk_new ex_heap)).getD (rpc_client.mk_new ex_heap)

/-! # Theorems -/

/-! ## Lists: slots and resizing -/

theorem getD_set (l : List (Option Nat)) (i j : Nat) (v : Option Nat) :
    (l.set i v).getD j none = if i = j ∧ i < l.length then v else l.getD j none := by
  simp only [List.getD_eq_getElem?_getD, List.getElem?_set]
  by_cases h : i = j
  · subst h
    by_cases h2 : i < l.length
    · simp [h2]
    · simp [h2, List.getElem?_eq_none (Nat.le_of_not_lt h2)]
  · simp [h]

theorem getD_of_length_le (l : List (Option Nat)) (j : Nat) (h : l.length ≤ j) :
    l.getD j none = none := by
  simp [List.getD_eq_getElem?_getD, List.getElem?_eq_none h]

theorem length_resize {α : Type} (l : List α) (n : Nat) (v : α) :
    (resize l n v).length = n := by
  simp [resize]
  omega

theorem getD_resize (l : List (Option Nat)) (n j : Nat) :
    (resize l n none).getD j none = if j < n then l.getD j none else none := by
  simp only [resize, List.getD_eq_getElem?_getD, List.getElem?_append, List.getElem?_take,
    List.getElem?_replicate, List.length_take]
  by_cases h1 : j < n
  · by_cases h2 : j < l.length
    · simp [h1, h2]
    · have : l[j]? = none := List.getElem?_eq_none (Nat.le_of_not_lt h2)
      simp [h1, h2, this]
      split <;> simp
  · by_cases h2 : j < l.length
    · simp [h1, h2]
      split <;> simp
    · simp [h1, h2]
      split <;> simp

/-! ## What the handlers leave unchanged -/

theorem registry_store (rptr : Nat) (r : rpc_request) (w : World) :
    (w.store rptr r).registry = w.registry := rfl

theorem registry_emit (e : event) (w : World) : (w.emit e).registry = w.registry := rfl

theorem registry_on_response (T : req_kind) (rptr : Nat) (w : World) :
    (on_response T rptr w).registry = w.registry := by
  unfold on_response
  split
  · split <;> rfl
  · rfl

theorem registry_on_error (jt : jtree) (T : req_kind) (rptr : Nat) (w : World) :
    (on_error jt T rptr w).2.registry = w.registry := by
  unfold on_error
  by_cases h : jt.find_val 1 "error" = 0
  · simp [h]
  · simp [h, registry_on_response, registry_store]

theorem registry_add_notify (rptr : Nat) (w : World) :
    (rpc_client.add_notify rptr w).registry = w.registry := rfl

theorem registry_remove_notify (rptr : Nat) (w : World) :
    (rpc_client.remove_notify rptr w).registry = w.registry := by
  unfold rpc_client.remove_notify
  split <;> rfl

theorem registry_sub_add_notify (jp : jtree) (rptr : Nat) (w : World) :
    (rpc_subscription.add_notify jp rptr w).registry = w.registry := by
  unfold rpc_subscription.add_notify
  by_cases h : jp.find_val 1 "result" = 0
  · simp [h]
  · simp [h, registry_add_notify, registry_store]

theorem registry_response (X : extern_fns) (jt : jtree) (rptr : Nat) (w : World) :
    (rpc_request.response X jt rptr w).registry = w.registry := by
  unfold rpc_request.response
  have he := registry_emit (event.response rptr) w
  generalize w.emit (event.response rptr) = w1 at he ⊢
  have h1 : ∀ T, (on_error jt T rptr w1).2.registry = w.registry := fun T => by
    rw [registry_on_error, he]
  dsimp only
  split
  · unfold rpc.get_account_info.response
    simp only
    split
    · exact h1 _
    · rw [registry_on_response, registry_store]; exact h1 _
  · unfold rpc.get_recent_block_hash.response
    simp only
    split
    · exact h1 _
    · rw [registry_on_response, registry_store]; exact h1 _
  · unfold rpc.get_health.response
    simp only
    split
    · exact h1 _
    · rw [registry_on_response]; exact h1 _
  · unfold rpc.transfer.response
    simp only
    split
    · exact h1 _
    · rw [registry_on_response]; exact h1 _
  · unfold rpc.signature_subscribe.response
    simp only
    split
    · exact h1 _
    · rw [registry_sub_add_notify]; exact h1 _

theorem registry_notify (jt : jtree) (rptr : Nat) (w : World) :
    (rpc_request.notify jt rptr w).2.registry = w.registry := by
  unfold rpc_request.notify
  have he := registry_emit (event.notify rptr) w
  generalize w.emit (event.notify rptr) = w1 at he ⊢
  have h1 : ∀ T, (on_error jt T rptr w1).2.registry = w.registry := fun T => by
    rw [registry_on_error, he]
  dsimp only
  split
  · unfold rpc.signature_subscribe.notify
    simp only
    split
    · exact h1 _
    · simp only; rw [registry_on_response]; exact h1 _
  · exact he

/-! ## The registry invariant -/

theorem registry_ok_congr {w w1 : World} (h : w1.registry = w.registry)
    (hw : registry_ok w) : registry_ok w1 := by
  simp only [World.registry, Prod.mk.injEq] at h
  obtain ⟨_, _, h1, h2, h3⟩ := h
  constructor
  · rw [h1, h2]; exact hw.len
  · rw [h1]; exact hw.bound
  · rw [h2]; exact hw.zero
  · rw [h1, h3]; exact hw.free_range
  · rw [h2, h3]; exact hw.free_empty
  · rw [h3]; exact hw.nodup
  · rw [h1, h2, h3]; exact hw.empty_free

theorem registry_ok_mk_new (h : Nat → rpc_request) : registry_ok (rpc_client.mk_new h) := by
  constructor <;> simp [rpc_client.mk_new, vector_max_size]
  intro i hi
  omega

/-- What `get_request_id` returns on a well-formed registry. -/
theorem get_request_id_spec {w : World} (hw : registry_ok w) :
    (∀ ys a, w.reuse_ = ys ++ [a] →
      rpc_client.get_request_id w = some (a, { w with reuse_ := ys })) ∧
    (w.reuse_ = [] → w.id_ + 2 ≤ vector_max_size →
      rpc_client.get_request_id w =
        some (w.id_ + 1, { w with id_ := w.id_ + 1, rv_ := resize w.rv_ (w.id_ + 2) none })) ∧
    (w.reuse_ = [] → vector_max_size < w.id_ + 2 → rpc_client.get_request_id w = none) := by
  have hb := hw.bound
  have hm : vector_max_size < 2 ^ 64 - 1 := by unfold vector_max_size; norm_num
  have e1 : (w.id_ + 1) % 2 ^ 64 = w.id_ + 1 := Nat.mod_eq_of_lt (by omega)
  have e2 : (1 + (w.id_ + 1)) % 2 ^ 64 = w.id_ + 2 := by
    rw [Nat.mod_eq_of_lt (by omega)]; omega
  refine ⟨?_, ?_, ?_⟩
  · intro ys a h
    unfold rpc_client.get_request_id
    simp [h]
  · intro h hle
    unfold rpc_client.get_request_id
    simp only [h, ne_eq, not_true_eq_false, if_false, e1, e2, hle, if_true]
  · intro h hlt
    unfold rpc_client.get_request_id
    simp only [h, ne_eq, not_true_eq_false, if_false, e1, e2]
    rw [if_neg (by omega)]

/-! ## Submitting a request -/

/-- Building the message changes at most the members of the class of the request. -/
theorem request_base (X : extern_fns) (r : rpc_request) (msg : jwriter) :
    (r.request X msg).1.id_ = r.id_ ∧ (r.request X msg).1.cb_ = r.cb_ ∧
    (r.request X msg).1.ec_ = r.ec_ ∧ (r.request X msg).1.emsg_ = r.emsg_ ∧
    (r.request X msg).1.cp_ = r.cp_ ∧ (r.request X msg).1.kind = r.kind := by
  unfold rpc_request.request rpc_request.kind
  cases h : r.var <;> simp [h]

/-- The state `add_request` returns, given the id picked: the request is stored in
the slot of the id; connections, counter, free list, subscription map and log are
those left by `get_request_id`. -/
theorem add_request_some (X : extern_fns) (rptr : Nat) {w w1 : World} {id : Nat}
    (h : rpc_client.get_request_id w = some (id, w1)) :
    ∃ w2, rpc_client.add_request X rptr w = some w2 ∧
      w2.registry = (w1.hptr_, w1.wptr_, w1.id_, w1.rv_.set id (some rptr), w1.reuse_) ∧
      w2.smap_ = w1.smap_ ∧ w2.log = w1.log ∧ (w2.heap rptr).id_ = id ∧
      (w2.heap rptr).cb_ = (w1.heap rptr).cb_ ∧ (w2.heap rptr).kind = (w1.heap rptr).kind ∧
      ∀ p, p ≠ rptr → w2.heap p = w1.heap p := by
  have hex : ∃ w2, rpc_client.add_request X rptr w = some w2 := by
    unfold rpc_client.add_request
    rw [h]
    exact ⟨_, rfl⟩
  obtain ⟨w2, h2⟩ := hex
  refine ⟨w2, h2, ?_⟩
  unfold rpc_client.add_request at h2
  rw [h] at h2
  simp only [Option.some.injEq] at h2
  subst h2
  refine ⟨rfl, rfl, rfl, ?_, ?_, ?_, ?_⟩
  · simp only [World.store, ↓reduceIte]
    rw [(request_base X _ _).1]
    rfl
  · simp only [World.store, ↓reduceIte]
    rw [(request_base X _ _).2.1]
    rfl
  · simp only [World.store, ↓reduceIte]
    rw [(request_base X _ _).2.2.2.2.2]
    rfl
  · intro p hp
    simp [World.store, hp]

theorem add_request_none {X : extern_fns} {rptr : Nat} {w : World}
    (h : rpc_client.get_request_id w = none) : rpc_client.add_request X rptr w = none := by
  unfold rpc_client.add_request
  rw [h]

/-- The two ways `add_request` returns on a well-formed registry: it takes the last
entry of the free list, or, the free list being empty, the next counter value. -/
theorem add_request_cases {X : extern_fns} {rptr : Nat} {w w2 : World}
    (hw : registry_ok w) (h : rpc_client.add_request X rptr w = some w2) :
    ((∃ ys, w.reuse_ = ys ++ [(w2.heap rptr).id_] ∧ w2.reuse_ = ys ∧ w2.id_ = w.id_ ∧
        w2.rv_ = w.rv_.set (w2.heap rptr).id_ (some rptr)) ∨
      (w.reuse_ = [] ∧ (w2.heap rptr).id_ = w.id_ + 1 ∧ w2.id_ = w.id_ + 1 ∧ w2.reuse_ = [] ∧
        w2.rv_ = (resize w.rv_ (w.id_ + 2) none).set (w.id_ + 1) (some rptr) ∧
        w.id_ + 2 ≤ vector_max_size)) ∧
    w2.hptr_ = w.hptr_ ∧ w2.wptr_ = w.wptr_ ∧ w2.smap_ = w.smap_ ∧ w2.log = w.log ∧
    (w2.heap rptr).cb_ = (w.heap rptr).cb_ ∧ (w2.heap rptr).kind = (w.heap rptr).kind ∧
    ∀ p, p ≠ rptr → w2.heap p = w.heap p := by
  obtain ⟨s1, s2, s3⟩ := get_request_id_spec hw
  rcases List.eq_nil_or_concat w.reuse_ with hnil | ⟨ys, a, hc⟩
  · by_cases hle : w.id_ + 2 ≤ vector_max_size
    · obtain ⟨w3, e3, hreg, hs, hl, hid, hcb, hk, hp⟩ :=
        add_request_some X rptr (s2 hnil hle)
      rw [h] at e3
      cases e3
      simp only [World.registry, Prod.mk.injEq] at hreg
      obtain ⟨r1, r2, r3, r4, r5⟩ := hreg
      exact ⟨Or.inr ⟨hnil, hid, r3, r5.trans hnil, r4, hle⟩, r1, r2, hs, hl, hcb, hk, hp⟩
    · rw [add_request_none (s3 hnil (by omega))] at h
      cases h
  · rw [List.concat_eq_append] at hc
    obtain ⟨w3, e3, hreg, hs, hl, hid, hcb, hk, hp⟩ :=
      add_request_some X rptr (s1 ys a hc)
    rw [h] at e3
    cases e3
    simp only [World.registry, Prod.mk.injEq] at hreg
    obtain ⟨r1, r2, r3, r4, r5⟩ := hreg
    refine ⟨Or.inl ⟨ys, ?_, r5, r3, ?_⟩, r1, r2, hs, hl, hcb, hk, hp⟩
    · rw [hid]; exact hc
    · rw [hid]; exact r4

/-- When `add_request` returns on a well-formed registry. -/
theorem add_request_returns (X : extern_fns) (rptr : Nat) {w : World} (hw : registry_ok w) :
    (∃ w2, rpc_client.add_request X rptr w = some w2) ↔
      (w.reuse_ ≠ [] ∨ w.id_ + 2 ≤ vector_max_size) := by
  obtain ⟨s1, s2, s3⟩ := get_request_id_spec hw
  constructor
  · rintro ⟨w2, h⟩
    by_contra hn
    push_neg at hn
    rw [add_request_none (s3 hn.1 (by omega))] at h
    cases h
  · intro h
    rcases List.eq_nil_or_concat w.reuse_ with hnil | ⟨ys, a, hc⟩
    · rcases h with h | h
      · exact absurd hnil h
      · obtain ⟨w3, e3, _⟩ := add_request_some X rptr (s2 hnil h)
        exact ⟨w3, e3⟩
    · rw [List.concat_eq_append] at hc
      obtain ⟨w3, e3, _⟩ := add_request_some X rptr (s1 ys a hc)
      exact ⟨w3, e3⟩

theorem registry_ok_add_request {X : extern_fns} {rptr : Nat} {w w2 : World}
    (hw : registry_ok w) (h : rpc_client.add_request X rptr w = some w2) : registry_ok w2 := by
  obtain ⟨hc, -⟩ := add_request_cases hw h
  rcases hc with ⟨ys, h1, h2, h3, h4⟩ | ⟨h1, h2, h3, h4, h5, h6⟩
  · generalize (w2.heap rptr).id_ = id at h1 h4
    have hmem : id ∈ w.reuse_ := by rw [h1]; simp
    have hr := hw.free_range id hmem
    have hnd := hw.nodup
    rw [h1, List.nodup_append] at hnd
    have hlen := hw.len
    have hne : w.id_ ≠ 0 := by omega
    rw [if_neg hne] at hlen
    constructor
    · rw [h3, h4, List.length_set]; exact hw.len
    · rw [h3]; exact hw.bound
    · rw [h4, getD_set, if_neg (by omega)]; exact hw.zero
    · intro i hi
      rw [h2] at hi
      rw [h3]
      exact hw.free_range i (by rw [h1]; simp [hi])
    · intro i hi
      rw [h2] at hi
      have hne : id ≠ i := by
        rintro rfl
        exact hnd.2.2 hi (by simp)
      rw [h4, getD_set, if_neg (by simp [hne])]
      exact hw.free_empty i (by rw [h1]; simp [hi])
    · rw [h2]; exact hnd.1
    · intro i hi1 hi2 hi3
      rw [h3] at hi2
      rw [h4, getD_set] at hi3
      by_cases hii : id = i
      · subst hii
        rw [if_pos ⟨rfl, by omega⟩] at hi3
        cases hi3
      · rw [if_neg (by simp [hii])] at hi3
        have := hw.empty_free i hi1 hi2 hi3
        rw [h1] at this
        rw [h2]
        simp only [List.mem_append, List.mem_singleton] at this
        rcases this with h | h
        · exact h
        · exact absurd h.symm hii
  · constructor
    · rw [h5, h3, List.length_set, length_resize]; simp
    · rw [h3]; omega
    · rw [h5, getD_set, if_neg (by omega), getD_resize, if_pos (by omega)]; exact hw.zero
    · intro i hi; rw [h4] at hi; cases hi
    · intro i hi; rw [h4] at hi; cases hi
    · rw [h4]; exact List.nodup_nil
    · intro i hi1 hi2 hi3
      rw [h3] at hi2
      rw [h5, getD_set] at hi3
      by_cases hii : w.id_ + 1 = i
      · rw [if_pos ⟨hii, by rw [length_resize]; omega⟩] at hi3
        cases hi3
      · rw [if_neg (by simp [hii]), getD_resize, if_pos (by omega)] at hi3
        have := hw.empty_free i hi1 (by omega) hi3
        rw [h1] at this
        cases this

theorem registry_ok_send {X : extern_fns} {rptr : Nat} {w w2 : World}
    (hw : registry_ok w) (h : rpc_client.send X rptr w = some w2) : registry_ok w2 := by
  unfold rpc_client.send at h
  cases h1 : rpc_client.add_request X rptr w with
  | none => rw [h1] at h; cases h
  | some w1 =>
    rw [h1] at h
    have hw1 := registry_ok_add_request hw h1
    simp only at h
    split at h
    · split at h
      · cases h; exact registry_ok_congr (registry_emit _ _) hw1
      · cases h
    · split at h
      · cases h; exact registry_ok_congr (registry_emit _ _) hw1
      · cases h

/-! ## Delivering a document -/

/-- A document with an `id` whose slot holds a request: the slot is cleared and the
id pushed on the free list, then the response handler of the request runs. -/
theorem parse_response_hit {X : extern_fns} {jp : jtree} {w : World} {rptr : Nat}
    (hid : jp.find_val 1 "id" ≠ 0)
    (hs : w.rv_.getD (jp.get_uint (jp.find_val 1 "id")) none = some rptr) :
    rpc_client.parse_response X jp w =
      rpc_request.response X jp rptr
        { w with rv_ := w.rv_.set (jp.get_uint (jp.find_val 1 "id")) none,
                 reuse_ := w.reuse_ ++ [jp.get_uint (jp.find_val 1 "id")] } := by
  have hlt : jp.get_uint (jp.find_val 1 "id") < w.rv_.length := by
    by_contra hn
    rw [getD_of_length_le _ _ (Nat.le_of_not_lt hn)] at hs
    cases hs
  unfold rpc_client.parse_response
  simp only [hid, ne_eq, not_false_eq_true, if_true, hlt, hs]

/-- A document with an `id` whose slot is empty or outside the slot array is
dropped. -/
theorem parse_response_miss {X : extern_fns} {jp : jtree} {w : World}
    (hid : jp.find_val 1 "id" ≠ 0)
    (hs : w.rv_.getD (jp.get_uint (jp.find_val 1 "id")) none = none) :
    rpc_client.parse_response X jp w = w := by
  unfold rpc_client.parse_response
  simp only [hid, ne_eq, not_false_eq_true, if_true, hs]
  split <;> rfl

/-- A document without an `id` leaves the registry as it is. -/
theorem registry_parse_response_notify {X : extern_fns} {jp : jtree} {w : World}
    (hid : jp.find_val 1 "id" = 0) :
    (rpc_client.parse_response X jp w).registry = w.registry := by
  unfold rpc_client.parse_response
  simp only [hid, ne_eq, not_true_eq_false, if_false]
  split
  · split
    · have := registry_notify jp ‹Nat› w
      revert this
      generalize rpc_request.notify jp _ w = r
      intro this
      obtain ⟨rm, w1⟩ := r
      simp only at this ⊢
      split
      · exact this
      · exact this
    · rfl
  · rfl

theorem registry_ok_parse_response {X : extern_fns} {jp : jtree} {w : World}
    (hw : registry_ok w) : registry_ok (rpc_client.parse_response X jp w) := by
  by_cases hid : jp.find_val 1 "id" = 0
  · exact registry_ok_congr (registry_parse_response_notify hid) hw
  · cases hs : w.rv_.getD (jp.get_uint (jp.find_val 1 "id")) none with
    | none => rw [parse_response_miss hid hs]; exact hw
    | some rptr =>
      rw [parse_response_hit hid hs]
      refine registry_ok_congr (registry_response _ _ _ _) ?_
      generalize jp.get_uint (jp.find_val 1 "id") = id at hs
      have hlt : id < w.rv_.length := by
        by_contra hn
        rw [getD_of_length_le _ _ (Nat.le_of_not_lt hn)] at hs
        cases hs
      have hlen := hw.len
      have hz := hw.zero
      have hid1 : 1 ≤ id := by
        rcases Nat.eq_zero_or_pos id with h0 | h0
        · subst h0; rw [hz] at hs; cases hs
        · exact h0
      have hnm : id ∉ w.reuse_ := fun hm => by
        rw [hw.free_empty id hm] at hs; cases hs
      have hle : id ≤ w.id_ := by
        split at hlen <;> omega
      constructor
      · simp only [List.length_set]; exact hw.len
      · exact hw.bound
      · simp only [getD_set]; rw [if_neg (by omega)]; exact hz
      · intro i hi
        simp only [List.mem_append, List.mem_singleton] at hi
        rcases hi with hi | rfl
        · exact hw.free_range i hi
        · exact ⟨hid1, hle⟩
      · intro i hi
        simp only [List.mem_append, List.mem_singleton] at hi
        simp only [getD_set]
        split
        · rfl
        · rcases hi with hi | rfl
          · exact hw.free_empty i hi
          · simp_all
      · simp only
        rw [List.nodup_append]
        refine ⟨hw.nodup, List.nodup_singleton _, ?_⟩
        intro a ha hb
        simp only [List.mem_singleton] at hb
        subst hb
        exact hnm ha
      · intro i hi1 hi2 hi3
        simp only [getD_set] at hi3
        simp only [List.mem_append, List.mem_singleton]
        by_cases hii : id = i
        · exact Or.inr hii.symm
        · rw [if_neg (by simp [hii])] at hi3
          exact Or.inl (hw.empty_free i hi1 hi2 hi3)

theorem registry_ok_run {X : extern_fns} {o : op} {w w2 : World} (hw : registry_ok w)
    (h : o.run X w = some w2) : registry_ok w2 := by
  cases o with
  | set_http_conn => cases h; exact ⟨hw.len, hw.bound, hw.zero, hw.free_range, hw.free_empty, hw.nodup, hw.empty_free⟩
  | set_ws_conn => cases h; exact ⟨hw.len, hw.bound, hw.zero, hw.free_range, hw.free_empty, hw.nodup, hw.empty_free⟩
  | send rptr => exact registry_ok_send hw h
  | add_request rptr => exact registry_ok_add_request hw h
  | parse_response jp => cases h; exact registry_ok_parse_response hw
  | add_notify rptr => cases h; exact registry_ok_congr (registry_add_notify _ _) hw
  | remove_notify rptr => cases h; exact registry_ok_congr (registry_remove_notify _ _) hw
  | write rptr r => cases h; exact registry_ok_congr (registry_store _ _ _) hw

theorem registry_ok_run_ops {X : extern_fns} (os : List op) {w w2 : World}
    (hw : registry_ok w) (h : run_ops X os w = some w2) : registry_ok w2 := by
  induction os generalizing w with
  | nil => cases h; exact hw
  | cons o os ih =>
    unfold run_ops at h
    cases h1 : o.run X w with
    | none => rw [h1] at h; cases h
    | some w1 => rw [h1] at h; exact ih (registry_ok_run hw h1) h

/-- Every reachable state has a well-formed registry. -/
theorem registry_ok_of_reachable {X : extern_fns} {w : World} (h : reachable X w) :
    registry_ok w := by
  obtain ⟨h0, os, hr⟩ := h
  exact registry_ok_run_ops os (registry_ok_mk_new h0) hr

/-- What `send` does when it returns: `add_request`, then one message to the
connection picked by `get_is_http`. -/
theorem send_cases {X : extern_fns} {rptr : Nat} {w w2 : World}
    (h : rpc_client.send X rptr w = some w2) :
    ∃ w1, rpc_client.add_request X rptr w = some w1 ∧
      (((w1.heap rptr).get_is_http = true ∧ w1.hptr_ = true ∧
          w2 = w1.emit (event.http_add_send
            ⟨"POST", "/", [("Content-Type", "application/json")], w1.jw_⟩)) ∨
        ((w1.heap rptr).get_is_http = false ∧ w1.wptr_ = true ∧
          w2 = w1.emit (event.ws_add_send ⟨true, w1.jw_, true⟩))) := by
  unfold rpc_client.send at h
  cases h1 : rpc_client.add_request X rptr w with
  | none => rw [h1] at h; cases h
  | some w1 =>
    rw [h1] at h
    refine ⟨w1, rfl, ?_⟩
    simp only at h
    by_cases hh : (w1.heap rptr).get_is_http = true
    · rw [if_pos hh] at h
      by_cases hc : w1.hptr_ = true
      · rw [if_pos hc] at h
        cases h
        exact Or.inl ⟨hh, hc, rfl⟩
      · rw [if_neg hc] at h; cases h
    · rw [if_neg hh] at h
      by_cases hc : w1.wptr_ = true
      · rw [if_pos hc] at h
        cases h
        exact Or.inr ⟨by simpa using hh, hc, rfl⟩
      · rw [if_neg hc] at h; cases h

/-- A submit through `send` leaves the registry and the request objects as
`add_request` does. -/
theorem send_add_request {X : extern_fns} {rptr : Nat} {w w2 : World}
    (h : rpc_client.send X rptr w = some w2) :
    ∃ w1, rpc_client.add_request X rptr w = some w1 ∧ w2.registry = w1.registry ∧
      w2.heap = w1.heap ∧ w2.smap_ = w1.smap_ ∧ w2.jw_ = w1.jw_ := by
  obtain ⟨w1, h1, hc⟩ := send_cases h
  refine ⟨w1, h1, ?_⟩
  rcases hc with ⟨-, -, rfl⟩ | ⟨-, -, rfl⟩ <;> exact ⟨rfl, rfl, rfl, rfl⟩

/-- The slots after `add_request`, on a well-formed registry: the slot of the id
assigned was empty and now holds the request, the other slots are unchanged. -/
theorem add_request_slots {X : extern_fns} {rptr : Nat} {w w2 : World}
    (hw : registry_ok w) (h : rpc_client.add_request X rptr w = some w2) :
    w.rv_.getD (w2.heap rptr).id_ none = none ∧
    w2.rv_.getD (w2.heap rptr).id_ none = some rptr ∧
    ∀ j, j ≠ (w2.heap rptr).id_ → w2.rv_.getD j none = w.rv_.getD j none := by
  obtain ⟨hc, -⟩ := add_request_cases hw h
  rcases hc with ⟨ys, h1, h2, h3, h4⟩ | ⟨h1, h2, h3, h4, h5, h6⟩
  · generalize (w2.heap rptr).id_ = id at h1 h4 ⊢
    have hmem : id ∈ w.reuse_ := by rw [h1]; simp
    have hr := hw.free_range id hmem
    have hlen := hw.len
    rw [if_neg (by omega)] at hlen
    refine ⟨hw.free_empty id hmem, ?_, ?_⟩
    · rw [h4, getD_set, if_pos ⟨rfl, by omega⟩]
    · intro j hj
      rw [h4, getD_set, if_neg (by simp [Ne.symm hj])]
  · rw [h2]
    have hlen := hw.len
    refine ⟨?_, ?_, ?_⟩
    · apply getD_of_length_le
      split at hlen <;> omega
    · rw [h5, getD_set, if_pos ⟨rfl, by rw [length_resize]; omega⟩]
    · intro j hj
      rw [h5, getD_set, if_neg (by simp [Ne.symm hj]), getD_resize]
      split
      · rfl
      · symm
        apply getD_of_length_le
        split at hlen <;> omega

/-- Delivering a document never fills a slot: each slot keeps its content or is
cleared. -/
theorem parse_response_slots (X : extern_fns) (jp : jtree) (w : World) (j : Nat) :
    (rpc_client.parse_response X jp w).rv_.getD j none = w.rv_.getD j none ∨
    (rpc_client.parse_response X jp w).rv_.getD j none = none := by
  by_cases hid : jp.find_val 1 "id" = 0
  · have := registry_parse_response_notify (X := X) (w := w) hid
    simp only [World.registry, Prod.mk.injEq] at this
    rw [this.2.2.2.1]
    exact Or.inl rfl
  · cases hs : w.rv_.getD (jp.get_uint (jp.find_val 1 "id")) none with
    | none => rw [parse_response_miss hid hs]; exact Or.inl rfl
    | some rptr =>
      rw [parse_response_hit hid hs]
      have := registry_response X jp rptr
        { w with rv_ := w.rv_.set (jp.get_uint (jp.find_val 1 "id")) none,
                 reuse_ := w.reuse_ ++ [jp.get_uint (jp.find_val 1 "id")] }
      simp only [World.registry, Prod.mk.injEq] at this
      rw [this.2.2.2.1, getD_set]
      split
      · exact Or.inr rfl
      · exact Or.inl rfl

/-- C1: in every state a fresh client reaches, a submit (`add_request`, also through
`send`) returns whenever the free list holds an id or the slot array can grow; the
id it assigns had an empty slot before the call, that slot holds the submitted
request afterwards, and no other slot changes. Delivering a document only clears
slots, so a slot never passes from one request to another. -/
theorem submit_takes_empty_slot (X : extern_fns) (w : World) (rptr : Nat)
    (hr : reachable X w) :
    ((w.reuse_ ≠ [] ∨ w.id_ + 2 ≤ vector_max_size) →
      ∃ w2, rpc_client.add_request X rptr w = some w2) ∧
    (∀ w2, (rpc_client.add_request X rptr w = some w2 ∨ rpc_client.send X rptr w = some w2) →
      w.rv_.getD (w2.heap rptr).id_ none = none ∧
      w2.rv_.getD (w2.heap rptr).id_ none = some rptr ∧
      ∀ j, j ≠ (w2.heap rptr).id_ → w2.rv_.getD j none = w.rv_.getD j none) ∧
    (∀ jp j, (rpc_client.parse_response X jp w).rv_.getD j none = w.rv_.getD j none ∨
      (rpc_client.parse_response X jp w).rv_.getD j none = none) := by
  have hw := registry_ok_of_reachable hr
  refine ⟨(add_request_returns X rptr hw).2, ?_, fun jp j => parse_response_slots X jp w j⟩
  rintro w2 (h | h)
  · exact add_request_slots hw h
  · obtain ⟨w1, h1, hreg, hheap, -⟩ := send_add_request h
    simp only [World.registry, Prod.mk.injEq] at hreg
    rw [hheap, hreg.2.2.2.1]
    exact add_request_slots hw h1

/-- Witness for `submit_takes_empty_slot`: the example state with ids 1 and 3
outstanding and id 2 free, submitting the request at address 1. -/
theorem submit_takes_empty_slot_witness :
    reachable ex_extern ex_world ∧
    ((ex_world.reuse_ ≠ [] ∨ ex_world.id_ + 2 ≤ vector_max_size) →
      ∃ w2, rpc_client.add_request ex_extern 1 ex_world = some w2) ∧
    (∀ w2, (rpc_client.add_request ex_extern 1 ex_world = some w2 ∨
        rpc_client.send ex_extern 1 ex_world = some w2) →
      ex_world.rv_.getD (w2.heap 1).id_ none = none ∧
      w2.rv_.getD (w2.heap 1).id_ none = some 1 ∧
      ∀ j, j ≠ (w2.heap 1).id_ → w2.rv_.getD j none = ex_world.rv_.getD j none) ∧
    (∀ jp j, (rpc_client.parse_response ex_extern jp ex_world).rv_.getD j none =
        ex_world.rv_.getD j none ∨
      (rpc_client.parse_response ex_extern jp ex_world).rv_.getD j none = none) :=
  have hr : reachable ex_extern ex_world :=
    ⟨ex_heap, [.set_http_conn, .send 0, .send 2, .send 3, .parse_response (ex_doc_id 2)], rfl⟩
  ⟨hr, submit_takes_empty_slot ex_extern ex_world 1 hr⟩

/-- The id `add_request` assigns on a well-formed registry, by the state of the
free list. -/
theorem add_request_id {X : extern_fns} {rptr : Nat} {w w2 : World}
    (hw : registry_ok w) (h : rpc_client.add_request X rptr w = some w2) :
    (∀ ys a, w.reuse_ = ys ++ [a] →
      (w2.heap rptr).id_ = a ∧ w2.reuse_ = ys ∧ w2.id_ = w.id_) ∧
    (w.reuse_ = [] →
      (w2.heap rptr).id_ = w.id_ + 1 ∧ w2.id_ = w.id_ + 1 ∧ w2.reuse_ = []) := by
  obtain ⟨hc, -⟩ := add_request_cases hw h
  rcases hc with ⟨ys, h1, h2, h3, h4⟩ | ⟨h1, h2, h3, h4, h5, h6⟩
  · constructor
    · intro zs a hz
      rw [hz] at h1
      obtain ⟨e1, e2⟩ := List.append_inj' h1 rfl
      simp only [List.cons.injEq, and_true] at e2
      exact ⟨e2.symm, h2.trans e1.symm, h3⟩
    · intro hn
      rw [hn] at h1
      simp at h1
  · constructor
    · intro zs a hz
      rw [hz] at h1
      simp at h1
    · intro _
      exact ⟨h2, h3, h4⟩

/-- The free list after a document is delivered to the request in slot of its id. -/
theorem parse_response_hit_registry {X : extern_fns} {jp : jtree} {w : World} {rptr : Nat}
    (hid : jp.find_val 1 "id" ≠ 0)
    (hs : w.rv_.getD (jp.get_uint (jp.find_val 1 "id")) none = some rptr) :
    (rpc_client.parse_response X jp w).registry =
      (w.hptr_, w.wptr_, w.id_, w.rv_.set (jp.get_uint (jp.find_val 1 "id")) none,
        w.reuse_ ++ [jp.get_uint (jp.find_val 1 "id")]) := by
  rw [parse_response_hit hid hs, registry_response]
  rfl

/-- C2: id allocation is reuse-before-grow in last-in-first-out order. In every
reachable state a submit that returns assigns the last entry of the free list,
removes it and leaves the counter unchanged when the free list is not empty, and
assigns counter + 1 and advances the counter by one when it is empty; it returns
exactly when the free list is not empty or the slot array can grow. An id freed by
a delivered response is the id assigned by the very next submit, with the counter
unchanged. -/
theorem submit_reuses_before_growing (X : extern_fns) (w : World) (rptr : Nat)
    (hr : reachable X w) :
    (∀ w2, (rpc_client.add_request X rptr w = some w2 ∨ rpc_client.send X rptr w = some w2) →
      (∀ ys a, w.reuse_ = ys ++ [a] →
        (w2.heap rptr).id_ = a ∧ w2.reuse_ = ys ∧ w2.id_ = w.id_) ∧
      (w.reuse_ = [] →
        (w2.heap rptr).id_ = w.id_ + 1 ∧ w2.id_ = w.id_ + 1 ∧ w2.reuse_ = [])) ∧
    ((∃ w2, rpc_client.add_request X rptr w = some w2) ↔
      (w.reuse_ ≠ [] ∨ w.id_ + 2 ≤ vector_max_size)) ∧
    (∀ jp r, jp.find_val 1 "id" ≠ 0 →
      w.rv_.getD (jp.get_uint (jp.find_val 1 "id")) none = some r →
      ∃ w2, rpc_client.add_request X rptr (rpc_client.parse_response X jp w) = some w2 ∧
        (w2.heap rptr).id_ = jp.get_uint (jp.find_val 1 "id") ∧ w2.id_ = w.id_) := by
  have hw := registry_ok_of_reachable hr
  refine ⟨?_, add_request_returns X rptr hw, ?_⟩
  · rintro w2 (h | h)
    · exact add_request_id hw h
    · obtain ⟨w1, h1, hreg, hheap, -⟩ := send_add_request h
      simp only [World.registry, Prod.mk.injEq] at hreg
      rw [hheap, hreg.2.2.1, hreg.2.2.2.2]
      exact add_request_id hw h1
  · intro jp r hid hs
    have hw1 : registry_ok (rpc_client.parse_response X jp w) :=
      registry_ok_parse_response hw
    have hreg := parse_response_hit_registry (X := X) hid hs
    simp only [World.registry, Prod.mk.injEq] at hreg
    obtain ⟨w2, h2⟩ := (add_request_returns X rptr hw1).2
      (Or.inl (by rw [hreg.2.2.2.2]; simp))
    obtain ⟨e1, e2, e3⟩ := (add_request_id hw1 h2).1 _ _ hreg.2.2.2.2
    exact ⟨w2, h2, e1, e3.trans hreg.2.2.1⟩

/-- Witness for `submit_reuses_before_growing`: the example state, whose free list
is `[2]` and whose counter is 3, submitting the request at address 1. -/
theorem submit_reuses_before_growing_witness :
    reachable ex_extern ex_world ∧
    (∀ w2, (rpc_client.add_request ex_extern 1 ex_world = some w2 ∨
        rpc_client.send ex_extern 1 ex_world = some w2) →
      (∀ ys a, ex_world.reuse_ = ys ++ [a] →
        (w2.heap 1).id_ = a ∧ w2.reuse_ = ys ∧ w2.id_ = ex_world.id_) ∧
      (ex_world.reuse_ = [] →
        (w2.heap 1).id_ = ex_world.id_ + 1 ∧ w2.id_ = ex_world.id_ + 1 ∧ w2.reuse_ = [])) ∧
    ((∃ w2, rpc_client.add_request ex_extern 1 ex_world = some w2) ↔
      (ex_world.reuse_ ≠ [] ∨ ex_world.id_ + 2 ≤ vector_max_size)) ∧
    (∀ jp r, jp.find_val 1 "id" ≠ 0 →
      ex_world.rv_.getD (jp.get_uint (jp.find_val 1 "id")) none = some r →
      ∃ w2, rpc_client.add_request ex_extern 1
          (rpc_client.parse_response ex_extern jp ex_world) = some w2 ∧
        (w2.heap 1).id_ = jp.get_uint (jp.find_val 1 "id") ∧ w2.id_ = ex_world.id_) :=
  have hr : reachable ex_extern ex_world :=
    ⟨ex_heap, [.set_http_conn, .send 0, .send 2, .send 3, .parse_response (ex_doc_id 2)], rfl⟩
  ⟨hr, submit_reuses_before_growing ex_extern ex_world 1 hr⟩

/-! ## The log -/

theorem only_callbacks_of_log {rptr : Nat} {w w2 : World} (h : w2.log = w.log) :
    only_callbacks rptr w w2 :=
  ⟨[], by simp [h], by simp⟩

theorem only_callbacks_trans {rptr : Nat} {w w2 w3 : World} (h1 : only_callbacks rptr w w2)
    (h2 : only_callbacks rptr w2 w3) : only_callbacks rptr w w3 := by
  obtain ⟨c1, e1, p1⟩ := h1
  obtain ⟨c2, e2, p2⟩ := h2
  refine ⟨c1 ++ c2, by rw [e2, e1, List.append_assoc], ?_⟩
  intro e he
  rcases List.mem_append.1 he with h | h
  · exact p1 e h
  · exact p2 e h

theorem only_callbacks_on_response (T : req_kind) (rptr : Nat) (w : World) :
    only_callbacks rptr w (on_response T rptr w) := by
  unfold on_response
  split
  · split
    · exact ⟨[_], rfl, by simp⟩
    · exact only_callbacks_of_log rfl
  · exact only_callbacks_of_log rfl

theorem only_callbacks_on_error (jt : jtree) (T : req_kind) (rptr : Nat) (w : World) :
    only_callbacks rptr w (on_error jt T rptr w).2 := by
  unfold on_error
  by_cases h : jt.find_val 1 "error" = 0
  · simp only [h, if_true]
    exact only_callbacks_of_log rfl
  · simp only [h, if_false]
    exact only_callbacks_trans (only_callbacks_of_log rfl) (only_callbacks_on_response _ _ _)

theorem only_callbacks_sub_add_notify (jp : jtree) (rptr : Nat) (w : World) :
    only_callbacks rptr w (rpc_subscription.add_notify jp rptr w) := by
  unfold rpc_subscription.add_notify
  by_cases h : jp.find_val 1 "result" = 0
  · simp only [h, ne_eq, not_true_eq_false, if_false]
    exact only_callbacks_of_log rfl
  · simp only [h, ne_eq, not_false_eq_true, if_true]
    exact only_callbacks_of_log rfl

/-- The response handler of a request logs its own call and, after it, calls of
the callback of that request only. -/
theorem response_log (X : extern_fns) (jt : jtree) (rptr : Nat) (w : World) :
    only_callbacks rptr (w.emit (event.response rptr)) (rpc_request.response X jt rptr w) := by
  unfold rpc_request.response
  generalize w.emit (event.response rptr) = w1
  have h1 : ∀ T, only_callbacks rptr w1 (on_error jt T rptr w1).2 :=
    fun T => only_callbacks_on_error jt T rptr w1
  dsimp only
  split
  · unfold rpc.get_account_info.response
    simp only
    split
    · exact h1 _
    · exact only_callbacks_trans (h1 _) (only_callbacks_trans (only_callbacks_of_log rfl)
        (only_callbacks_on_response _ _ _))
  · unfold rpc.get_recent_block_hash.response
    simp only
    split
    · exact h1 _
    · exact only_callbacks_trans (h1 _) (only_callbacks_trans (only_callbacks_of_log rfl)
        (only_callbacks_on_response _ _ _))
  · unfold rpc.get_health.response
    simp only
    split
    · exact h1 _
    · exact only_callbacks_trans (h1 _) (only_callbacks_on_response _ _ _)
  · unfold rpc.transfer.response
    simp only
    split
    · exact h1 _
    · exact only_callbacks_trans (h1 _) (only_callbacks_on_response _ _ _)
  · unfold rpc.signature_subscribe.response
    simp only
    split
    · exact h1 _
    · exact only_callbacks_trans (h1 _) (only_callbacks_sub_add_notify _ _ _)

/-- C3: when slot `i` holds request `r`, delivering a document with id `i` runs the
response handler of `r` on the state in which slot `i` is already cleared and `i`
is already the last entry of the free list; afterwards slot `i` is empty, the free
list is the old one with `i` appended, and the log has grown by exactly one handler
call, the response handler of `r`, followed only by calls of the callback of `r`. -/
theorem response_routed_to_holder (X : extern_fns) (jp : jtree) (w : World) (i r : Nat)
    (hid : jp.find_val 1 "id" ≠ 0) (hi : jp.get_uint (jp.find_val 1 "id") = i)
    (hs : w.rv_.getD i none = some r) :
    rpc_client.parse_response X jp w =
      rpc_request.response X jp r
        { w with rv_ := w.rv_.set i none, reuse_ := w.reuse_ ++ [i] } ∧
    (w.rv_.set i none).getD i none = none ∧
    (rpc_client.parse_response X jp w).rv_.getD i none = none ∧
    (rpc_client.parse_response X jp w).reuse_ = w.reuse_ ++ [i] ∧
    (rpc_client.parse_response X jp w).id_ = w.id_ ∧
    (∀ j, j ≠ i → (rpc_client.parse_response X jp w).rv_.getD j none = w.rv_.getD j none) ∧
    ∃ cbs, (rpc_client.parse_response X jp w).log = w.log ++ event.response r :: cbs ∧
      ∀ e ∈ cbs, ∃ cb q, e = event.on_response cb r q := by
  subst hi
  have hlt : jp.get_uint (jp.find_val 1 "id") < w.rv_.length := by
    by_contra hn
    rw [getD_of_length_le _ _ (Nat.le_of_not_lt hn)] at hs
    cases hs
  have hreg := parse_response_hit_registry (X := X) hid hs
  simp only [World.registry, Prod.mk.injEq] at hreg
  obtain ⟨-, -, r3, r4, r5⟩ := hreg
  have hclr : (w.rv_.set (jp.get_uint (jp.find_val 1 "id")) none).getD
      (jp.get_uint (jp.find_val 1 "id")) none = none := by
    rw [getD_set, if_pos ⟨rfl, hlt⟩]
  refine ⟨parse_response_hit hid hs, hclr, by rw [r4]; exact hclr, r5, r3, ?_, ?_⟩
  · intro j hj
    rw [r4, getD_set, if_neg (by simp [Ne.symm hj])]
  · rw [parse_response_hit hid hs]
    obtain ⟨cbs, e1, e2⟩ := response_log X jp r
      { w with rv_ := w.rv_.set (jp.get_uint (jp.find_val 1 "id")) none,
               reuse_ := w.reuse_ ++ [jp.get_uint (jp.find_val 1 "id")] }
    refine ⟨cbs, ?_, e2⟩
    rw [e1]
    simp [World.emit]

/-- Witness for `response_routed_to_holder`: in the example state slot 3 holds the
request at address 3, and the document is `{"id":3}`. -/
theorem response_routed_to_holder_witness :
    ((ex_doc_id 3).find_val 1 "id" ≠ 0 ∧ (ex_doc_id 3).get_uint ((ex_doc_id 3).find_val 1 "id") = 3 ∧
      ex_world.rv_.getD 3 none = some 3) ∧
    rpc_client.parse_response ex_extern (ex_doc_id 3) ex_world =
      rpc_request.response ex_extern (ex_doc_id 3) 3
        { ex_world with rv_ := ex_world.rv_.set 3 none, reuse_ := ex_world.reuse_ ++ [3] } ∧
    (ex_world.rv_.set 3 none).getD 3 none = none ∧
    (rpc_client.parse_response ex_extern (ex_doc_id 3) ex_world).rv_.getD 3 none = none ∧
    (rpc_client.parse_response ex_extern (ex_doc_id 3) ex_world).reuse_ =
      ex_world.reuse_ ++ [3] ∧
    (rpc_client.parse_response ex_extern (ex_doc_id 3) ex_world).id_ = ex_world.id_ ∧
    (∀ j, j ≠ 3 → (rpc_client.parse_response ex_extern (ex_doc_id 3) ex_world).rv_.getD j none =
      ex_world.rv_.getD j none) ∧
    ∃ cbs, (rpc_client.parse_response ex_extern (ex_doc_id 3) ex_world).log =
        ex_world.log ++ event.response 3 :: cbs ∧
      ∀ e ∈ cbs, ∃ cb q, e = event.on_response cb 3 q :=
  ⟨⟨by decide, by decide, by decide⟩,
    response_routed_to_holder ex_extern (ex_doc_id 3) ex_world 3 3 (by decide) (by decide)
      (by decide)⟩

/-- C4: in every reachable state, a document whose id is 0, is larger than the
largest id handed out so far (the counter), or names an empty slot is dropped:
`parse_response` returns the state it was given, so no handler or callback is
called and slot array, free list, counter, subscription map and request objects
are unchanged. In particular a document delivered a second time, after the request
holding its id has completed, is dropped. -/
theorem stale_response_dropped (X : extern_fns) (jp : jtree) (w : World)
    (hr : reachable X w) (hid : jp.find_val 1 "id" ≠ 0) :
    ((jp.get_uint (jp.find_val 1 "id") = 0 ∨ w.id_ < jp.get_uint (jp.find_val 1 "id") ∨
        w.rv_.getD (jp.get_uint (jp.find_val 1 "id")) none = none) →
      rpc_client.parse_response X jp w = w) ∧
    rpc_client.parse_response X jp (rpc_client.parse_response X jp w) =
      rpc_client.parse_response X jp w := by
  have hw := registry_ok_of_reachable hr
  have hlen := hw.len
  constructor
  · intro h
    apply parse_response_miss hid
    rcases h with h | h | h
    · rw [h]; exact hw.zero
    · apply getD_of_length_le
      split at hlen <;> omega
    · exact h
  · cases hs : w.rv_.getD (jp.get_uint (jp.find_val 1 "id")) none with
    | none => rw [parse_response_miss hid hs, parse_response_miss hid hs]
    | some r =>
      apply parse_response_miss hid
      have hreg := parse_response_hit_registry (X := X) hid hs
      simp only [World.registry, Prod.mk.injEq] at hreg
      rw [hreg.2.2.2.1, getD_set]
      split
      · rfl
      · rename_i hn
        exfalso
        apply hn
        refine ⟨rfl, ?_⟩
        by_contra hlt
        rw [getD_of_length_le _ _ (Nat.le_of_not_lt hlt)] at hs
        cases hs

/-- Witness for `stale_response_dropped`: the example state, where id 2 has been
freed, and the document `{"id":2}`. -/
theorem stale_response_dropped_witness :
    (reachable ex_extern ex_world ∧ (ex_doc_id 2).find_val 1 "id" ≠ 0 ∧
      (ex_doc_id 2).get_uint ((ex_doc_id 2).find_val 1 "id") = 2) ∧
    ((ex_world.rv_.getD 2 none = none) ∧
      rpc_client.parse_response ex_extern (ex_doc_id 2) ex_world = ex_world) ∧
    rpc_client.parse_response ex_extern (ex_doc_id 2)
        (rpc_client.parse_response ex_extern (ex_doc_id 2) ex_world) =
      rpc_client.parse_response ex_extern (ex_doc_id 2) ex_world :=
  have hr : reachable ex_extern ex_world :=
    ⟨ex_heap, [.set_http_conn, .send 0, .send 2, .send 3, .parse_response (ex_doc_id 2)], rfl⟩
  have h := stale_response_dropped ex_extern (ex_doc_id 2) ex_world hr (by decide)
  ⟨⟨hr, by decide, by decide⟩, ⟨by decide, h.1 (Or.inr (Or.inr (by decide)))⟩, h.2⟩

/-! ## The transfer transaction -/

theorem le_value_le_bytes (n v : Nat) : le_value (le_bytes n v) = v % 256 ^ n := by
  induction n generalizing v with
  | zero => simp [le_bytes, le_value, Nat.mod_one]
  | succ n ih =>
    simp only [le_bytes, le_value, ih, Fin.ofNat, Fin.val_mk]
    rw [Nat.mod_mod, pow_succ, Nat.mul_comm (256 ^ n) 256, Nat.mod_mul]

theorem length_le_bytes (n v : Nat) : (le_bytes n v).length = n := by
  induction n generalizing v with
  | zero => rfl
  | succ n ih => simp [le_bytes, ih]

/-- Writing a signature over a reserved slot that follows one byte, whatever the
slot held. -/
theorem write_at_slot (b : byte) (slot : List byte) (hl : slot.length = 64) (s : signature)
    (m : List byte) :
    bincode.write_at ([b] ++ slot ++ m) 1 s.data = [b] ++ s.data ++ m := by
  unfold bincode.write_at
  rw [s.len_ok]
  have h1 : List.take 1 ([b] ++ slot ++ m) = [b] := by simp
  have h2 : List.drop (1 + 64) ([b] ++ slot ++ m) = m := by
    apply List.drop_left'
    simp [hl]
  rw [h1, h2]

/-- The transfer transaction: the count byte, the signature of the sender key pair
over the message, and the message: header, accounts, block hash and the transfer
instruction. No byte of the pooled buffer is left in it. -/
theorem build_tx_buf (X : extern_fns) (d : rpc.transfer) :
    (rpc.transfer.build_tx X d).buf =
      [1] ++ (X.sign d.snd_ ([1, 0, 1, 3] ++ d.snd_.pub.data ++ d.rcv_.data ++
          List.replicate 32 0 ++ d.bhash_.data ++ [1, 2, 2, 0, 1, 12, 2, 0, 0, 0] ++
          le_bytes 8 d.lamports_)).data ++
        ([1, 0, 1, 3] ++ d.snd_.pub.data ++ d.rcv_.data ++
          List.replicate 32 0 ++ d.bhash_.data ++ [1, 2, 2, 0, 1, 12, 2, 0, 0, 0] ++
          le_bytes 8 d.lamports_) := by
  have e1 : enc_len 3 1 = [1] := rfl
  have e2 : enc_len 3 2 = [2] := rfl
  have e3 : enc_len 3 3 = [3] := rfl
  have e12 : enc_len 3 12 = [12] := rfl
  have b0 : le_bytes 1 0 = [0] := rfl
  have b1 : le_bytes 1 1 = [1] := rfl
  have b2 : le_bytes 1 2 = [2] := rfl
  have b4 : le_bytes 4 2 = [2, 0, 0, 0] := rfl
  have hpre : ∀ slot t : List byte,
      ([] ++ enc_len 3 1 ++ slot ++ le_bytes 1 1 ++ le_bytes 1 0 ++ le_bytes 1 1 ++
        enc_len 3 3 ++ d.snd_.pub.data ++ d.rcv_.data ++ List.replicate 32 0 ++ d.bhash_.data ++
        enc_len 3 1 ++ le_bytes 1 2 ++ enc_len 3 2 ++ le_bytes 1 0 ++ le_bytes 1 1 ++
        enc_len 3 12 ++ le_bytes 4 2 ++ t) =
      [1] ++ slot ++ ([1, 0, 1, 3] ++ d.snd_.pub.data ++ d.rcv_.data ++
          List.replicate 32 0 ++ d.bhash_.data ++ [1, 2, 2, 0, 1, 12, 2, 0, 0, 0] ++ t) := by
    intro slot t
    rw [e1, e2, e3, e12, b0, b1, b2, b4]
    simp only [List.append_assoc, List.nil_append, List.cons_append, List.singleton_append]
  unfold rpc.transfer.build_tx
  simp only [bincode.attach, bincode.add_len, bincode.reserve_sign, bincode.get_pos,
    bincode.add_u8, bincode.add_u32, bincode.add_u64, bincode.add_hash, bincode.add_key_pair,
    bincode.sign, sys_id, gen_sys_id, hash.zero, system_instruction.val]
  rw [hpre]
  generalize hslot :
    List.map (fun i => X.net_buf_alloc (([] ++ enc_len 3 1 : List byte).length + i))
      (List.range 64) = slot
  have hl : slot.length = 64 := by rw [← hslot]; simp
  have hlen : ([] ++ enc_len 3 1 ++ slot).length = 65 := by
    rw [e1]
    simp [hl]
  have hlen1 : ([] ++ enc_len 3 1 : List byte).length = 1 := rfl
  rw [hlen, hlen1]
  have hdrop : ∀ m : List byte, List.drop 65 ([1] ++ slot ++ m) = m := by
    intro m
    apply List.drop_left'
    simp [hl]
  rw [hdrop]
  exact write_at_slot 1 slot hl _ _

/-- Picking an id leaves the request objects as they are. -/
theorem get_request_id_heap {w w1 : World} {id : Nat}
    (h : rpc_client.get_request_id w = some (id, w1)) : w1.heap = w.heap := by
  unfold rpc_client.get_request_id at h
  split at h
  · cases h; rfl
  · simp only at h
    split at h
    · cases h; rfl
    · cases h

/-- The request object and the message after `add_request`: id and client are set
on the object, then its `request` method runs on the message begun with the
`jsonrpc` and `id` keys, and the object is closed by `pop`. -/
theorem add_request_object {X : extern_fns} {rptr : Nat} {w w2 : World}
    (h : rpc_client.add_request X rptr w = some w2) :
    ∃ id, (w2.heap rptr).id_ = id ∧
      w2.heap rptr = (((w.heap rptr).set_id id).set_rpc_client.request X
        [jw_call.add_val_obj, jw_call.add_key_str "jsonrpc" "2.0",
          jw_call.add_key_uint "id" id]).1 ∧
      w2.jw_ = (((w.heap rptr).set_id id).set_rpc_client.request X
        [jw_call.add_val_obj, jw_call.add_key_str "jsonrpc" "2.0",
          jw_call.add_key_uint "id" id]).2 ++ [jw_call.pop] := by
  cases hg : rpc_client.get_request_id w with
  | none => rw [add_request_none hg] at h; cases h
  | some r =>
    obtain ⟨id, w1⟩ := r
    have hh := get_request_id_heap hg
    obtain ⟨w3, e3, -, -, -, hid, -⟩ := add_request_some X rptr hg
    rw [h] at e3
    cases e3
    refine ⟨id, hid, ?_⟩
    unfold rpc_client.add_request at h
    rw [hg] at h
    simp only [Option.some.injEq] at h
    subst h
    rw [← hh]
    constructor
    · simp [World.store]
    · simp [World.store]

theorem transfer_request_eq (X : extern_fns) (d : rpc.transfer) (msg : jwriter) :
    rpc.transfer.request X d msg =
      ({ d with sig_ := signature.init_from_buf ((rpc.transfer.build_tx X d).buf.drop 1) },
        msg ++ [jw_call.add_key_str "method" "sendTransaction", jw_call.add_key_arr "params",
          jw_call.add_val_enc_base64 (rpc.transfer.build_tx X d).buf, jw_call.add_val_obj,
          jw_call.add_key_str "encoding" "base64", jw_call.pop, jw_call.pop]) := by
  unfold rpc.transfer.request
  have h1 : rpc.transfer.sign_idx X = 1 := rfl
  simp only [h1, bincode.get_buf, bincode.size, List.take_length, List.append_assoc,
    List.singleton_append, List.cons_append, List.nil_append]

/-- C5: the transaction buffer `rpc::transfer::request` builds and passes to
`add_val_enc_base64` is 215 bytes: count byte 1, a 64-byte signature slot, header
bytes 1 0 1, count byte 3, the sender public key, the receiver key, the 32 zero
bytes of the system program id, the block hash, then 1 (instructions), 2 (program
index), 2 (account count), 0 1 (account indices), 12 (data length), 2 0 0 0 (the
transfer discriminant, little-endian) and the lamports as 8 little-endian bytes. -/
theorem transfer_tx_layout (X : extern_fns) (d : rpc.transfer) (msg : jwriter) :
    (∃ slot : List byte, slot.length = 64 ∧
      (rpc.transfer.build_tx X d).buf =
        [1] ++ slot ++ [1, 0, 1] ++ [3] ++ d.snd_.pub.data ++ d.rcv_.data ++ sys_id.data ++
          d.bhash_.data ++ [1] ++ [2] ++ [2] ++ [0, 1] ++ [12] ++ [2, 0, 0, 0] ++
          le_bytes 8 d.lamports_) ∧
    (rpc.transfer.build_tx X d).buf.length = 215 ∧
    d.snd_.pub.data.length = 32 ∧ d.rcv_.data.length = 32 ∧ d.bhash_.data.length = 32 ∧
    sys_id.data = List.replicate 32 0 ∧
    le_bytes 4 system_instruction.e_transfer.val = [2, 0, 0, 0] ∧
    (le_bytes 8 d.lamports_).length = 8 ∧
    le_value (le_bytes 8 d.lamports_) = d.lamports_ % 2 ^ 64 ∧
    enc_base64_params (rpc.transfer.request X d msg).2 =
      enc_base64_params msg ++ [(rpc.transfer.build_tx X d).buf] := by
  have hb := build_tx_buf X d
  have hslot := (X.sign d.snd_ ([1, 0, 1, 3] ++ d.snd_.pub.data ++ d.rcv_.data ++
          List.replicate 32 0 ++ d.bhash_.data ++ [1, 2, 2, 0, 1, 12, 2, 0, 0, 0] ++
          le_bytes 8 d.lamports_)).len_ok
  refine ⟨⟨_, hslot, ?_⟩, ?_, d.snd_.pub.len_ok, d.rcv_.len_ok, d.bhash_.len_ok, rfl, rfl,
    length_le_bytes 8 _, ?_, ?_⟩
  · rw [hb]
    simp [sys_id, gen_sys_id, hash.zero]
  · rw [hb]
    simp only [List.length_append, hslot, length_le_bytes, d.snd_.pub.len_ok, d.rcv_.len_ok,
      d.bhash_.len_ok, List.length_replicate, List.length_cons, List.length_nil]
  · rw [le_value_le_bytes]
    norm_num
  · rw [transfer_request_eq]
    simp [enc_base64_params, List.filterMap_append]

theorem store_store (rptr : Nat) (r1 r2 : rpc_request) (w : World) :
    (w.store rptr r1).store rptr r2 = w.store rptr r2 := by
  unfold World.store
  simp only [World.mk.injEq, true_and, and_true]
  funext p
  by_cases h : p = rptr <;> simp [h]

theorem on_response_eq (T : req_kind) (rptr : Nat) (w : World) :
    on_response T rptr w = { w with log := w.log ++ cb_events T rptr w } := by
  unfold on_response cb_events
  split
  · split
    · rfl
    · simp
  · simp

theorem on_error_absent {jt : jtree} (T : req_kind) (rptr : Nat) (w : World)
    (h : jt.find_val 1 "error" = 0) : on_error jt T rptr w = (false, w) := by
  unfold on_error
  simp [h]

theorem on_error_present {jt : jtree} (T : req_kind) (rptr : Nat) (w : World)
    (h : jt.find_val 1 "error" ≠ 0) :
    on_error jt T rptr w = (true, on_response T rptr (w.store rptr
      { w.heap rptr with
        ec_ := to_int (jt.get_int (jt.find_val (jt.find_val 1 "error") "code")),
        emsg_ := jt.get_text (jt.find_val (jt.find_val 1 "error") "message") })) := by
  unfold on_error
  simp only [h, if_false]
  rw [store_store]
  simp [World.store, rpc_request.set_err_msg, rpc_request.set_err_code]

theorem to_int_of_range {c : Int} (h1 : -2 ^ 31 ≤ c) (h2 : c < 2 ^ 31) : to_int c = c := by
  unfold to_int
  rw [Int.emod_eq_of_lt (by omega) (by omega)]
  omega

/-- The response handler of any request class on a document with an error
object. -/
theorem response_error_eq (X : extern_fns) (jt : jtree) (rptr : Nat) (w : World)
    (h : jt.find_val 1 "error" ≠ 0) :
    rpc_request.response X jt rptr w =
      on_response (w.heap rptr).kind rptr ((w.emit (event.response rptr)).store rptr
        { w.heap rptr with
          ec_ := to_int (jt.get_int (jt.find_val (jt.find_val 1 "error") "code")),
          emsg_ := jt.get_text (jt.find_val (jt.find_val 1 "error") "message") }) := by
  unfold rpc_request.response rpc_request.kind
  have he : (w.emit (event.response rptr)).heap = w.heap := rfl
  dsimp only
  rw [he]
  cases hv : (w.heap rptr).var <;> simp only
  · unfold rpc.get_account_info.response
    rw [on_error_present _ _ _ h]
    simp only [if_true, he, hv]
  · unfold rpc.get_recent_block_hash.response
    rw [on_error_present _ _ _ h]
    simp only [if_true, he, hv]
  · unfold rpc.get_health.response
    rw [on_error_present _ _ _ h]
    simp only [if_true, he, hv]
  · unfold rpc.transfer.response
    rw [on_error_present _ _ _ h]
    simp only [if_true, he, hv]
  · unfold rpc.signature_subscribe.response
    rw [on_error_present _ _ _ h]
    simp only [if_true, he, hv]

/-- C8 (as amended): on a document with an error object carrying code `c` and
message `m`, the response handler of a request of any class stores `m` as error
message and `c`, converted to the `int` that `set_err_code` takes, as error code
(`c` itself when it fits 32 bits), changes nothing else of the request (no result
field is read from the document), no other request and not the subscription map,
and calls the callback once if the request has a callback object that casts to
`rpc_sub_i<T>` for its class `T`, and not at all otherwise. -/
theorem error_response_sets_error (X : extern_fns) (jt : jtree) (rptr : Nat) (w : World)
    (c : Int) (m : String) (he : jt.find_val 1 "error" ≠ 0)
    (hc : jt.get_int (jt.find_val (jt.find_val 1 "error") "code") = c)
    (hm : jt.get_text (jt.find_val (jt.find_val 1 "error") "message") = m) :
    (rpc_request.response X jt rptr w).heap rptr =
      { w.heap rptr with ec_ := to_int c, emsg_ := m } ∧
    ((rpc_request.response X jt rptr w).heap rptr).emsg_ = m ∧
    (-2 ^ 31 ≤ c → c < 2 ^ 31 →
      ((rpc_request.response X jt rptr w).heap rptr).get_err_code = c) ∧
    ((rpc_request.response X jt rptr w).heap rptr).var = (w.heap rptr).var ∧
    (∀ p, p ≠ rptr → (rpc_request.response X jt rptr w).heap p = w.heap p) ∧
    (rpc_request.response X jt rptr w).smap_ = w.smap_ ∧
    (rpc_request.response X jt rptr w).log = w.log ++ [event.response rptr] ++
      match (w.heap rptr).cb_ with
      | some cb =>
        if (w.heap rptr).kind ∈ cb.ifaces then
          [event.on_response cb rptr { w.heap rptr with ec_ := to_int c, emsg_ := m }]
        else []
      | none => [] := by
  rw [response_error_eq X jt rptr w he, hc, hm, on_response_eq]
  have hheap : ∀ p, ({ (World.store rptr { w.heap rptr with ec_ := to_int c, emsg_ := m }
      (w.emit (event.response rptr))) with
      log := (World.store rptr { w.heap rptr with ec_ := to_int c, emsg_ := m }
        (w.emit (event.response rptr))).log ++
        cb_events (w.heap rptr).kind rptr (World.store rptr
          { w.heap rptr with ec_ := to_int c, emsg_ := m }
          (w.emit (event.response rptr))) } : World).heap p =
      if p = rptr then { w.heap rptr with ec_ := to_int c, emsg_ := m } else w.heap p :=
    fun p => rfl
  refine ⟨?_, ?_, ?_, ?_, ?_, rfl, ?_⟩
  · rw [hheap, if_pos rfl]
  · rw [hheap, if_pos rfl]
  · intro h1 h2
    rw [hheap, if_pos rfl]
    exact to_int_of_range h1 h2
  · rw [hheap, if_pos rfl]
  · intro p hp
    rw [hheap, if_neg hp]
  · simp only [cb_events, World.store, World.emit, if_true]

/-- Witness for `error_response_sets_error`: the document
`{"id":1,"error":{"code":-32602,"message":"invalid params"}}` handled by the account
query at address 2, which has a callback. -/
theorem error_response_sets_error_witness :
    (ex_doc_error.find_val 1 "error" ≠ 0 ∧
      ex_doc_error.get_int (ex_doc_error.find_val (ex_doc_error.find_val 1 "error") "code") =
        -32602 ∧
      ex_doc_error.get_text (ex_doc_error.find_val (ex_doc_error.find_val 1 "error") "message") =
        "invalid params") ∧
    ((rpc_request.response ex_extern ex_doc_error 2 ex_world).heap 2).emsg_ = "invalid params" ∧
    ((rpc_request.response ex_extern ex_doc_error 2 ex_world).heap 2).get_err_code = -32602 :=
  have h := error_response_sets_error ex_extern ex_doc_error 2 ex_world (-32602)
    "invalid params" (by decide) (by decide) (by decide)
  ⟨⟨by decide, by decide, by decide⟩, h.2.1, h.2.2.1 (by decide) (by decide)⟩

set_option maxRecDepth 100000 in
/-- Counterexample to C8 as stated: the error document
`{"id":1,"error":{"code":-32602,"message":"invalid params"}}` is delivered to a
health query without callback object (address 0, id 1 in `ex_world`) and to a
health query whose callback object does not cast to `rpc_sub_i<get_health>`
(address 6, id 1 in `ex_world_health`). In both cases the response handler runs and
stores code and message, and no callback is called. -/
theorem error_callback_counterexample :
    ex_world.rv_.getD 1 none = some 0 ∧
    (ex_world.heap 0).cb_ = none ∧
    (rpc_client.parse_response ex_extern ex_doc_error ex_world).log =
      ex_world.log ++ [event.response 0] ∧
    ((rpc_client.parse_response ex_extern ex_doc_error ex_world).heap 0).get_err_code
      = -32602 ∧
    (((rpc_client.parse_response ex_extern ex_doc_error ex_world).log.drop
      ex_world.log.length).filter event.is_callback).length = 0 ∧
    ex_world_health.rv_.getD 1 none = some 6 ∧
    (ex_world_health.heap 6).cb_ = some ⟨101, [.get_account_info]⟩ ∧
    (rpc_client.parse_response ex_extern ex_doc_error ex_world_health).log =
      ex_world_health.log ++ [event.response 6] ∧
    ((rpc_client.parse_response ex_extern ex_doc_error ex_world_health).heap 6).get_err_code
      = -32602 ∧
    ((rpc_client.parse_response ex_extern ex_doc_error ex_world_health).heap 6).emsg_
      = "invalid params" ∧
    (((rpc_client.parse_response ex_extern ex_doc_error ex_world_health).log.drop
      ex_world_health.log.length).filter event.is_callback).length = 0 := by
  refine ⟨?_, ?_, ?_, ?_, ?_, ?_, ?_, ?_, ?_, ?_, ?_⟩ <;> decide

/-! ## Responses without an error object -/

/-- C9 (as amended): on a document without an error object, the response handler
of an account query or a block hash query never sets an error: error code and
message of the request stay as they were, whatever result fields the document has
or lacks, and the callback (when the request has one that casts to `rpc_sub_i<T>`
for its class) is called once with the request in that state. -/
theorem response_without_error_keeps_code (X : extern_fns) (jt : jtree) (rptr : Nat)
    (w : World) (he : jt.find_val 1 "error" = 0)
    (hk : (w.heap rptr).kind = .get_account_info ∨
      (w.heap rptr).kind = .get_recent_block_hash) :
    ((rpc_request.response X jt rptr w).heap rptr).get_err_code =
      (w.heap rptr).get_err_code ∧
    ((rpc_request.response X jt rptr w).heap rptr).emsg_ = (w.heap rptr).emsg_ ∧
    (rpc_request.response X jt rptr w).log = w.log ++ [event.response rptr] ++
      match (w.heap rptr).cb_ with
      | some cb =>
        if (w.heap rptr).kind ∈ cb.ifaces then
          [event.on_response cb rptr ((rpc_request.response X jt rptr w).heap rptr)]
        else []
      | none => [] := by
  unfold rpc_request.response
  have hh : (w.emit (event.response rptr)).heap = w.heap := rfl
  dsimp only
  rw [hh]
  unfold rpc_request.kind at hk ⊢
  cases hv : (w.heap rptr).var with
  | get_account_info d =>
    simp only
    unfold rpc.get_account_info.response
    rw [on_error_absent _ _ _ he]
    simp only [Bool.false_eq_true, if_false, on_response_eq, cb_events, World.store,
      World.emit, if_true, rpc_request.get_err_code]
    refine ⟨trivial, trivial, ?_⟩
    cases (w.heap rptr).cb_ with
    | none => simp
    | some cb => by_cases hm : req_kind.get_account_info ∈ cb.ifaces <;> simp [hm]
  | get_recent_block_hash d =>
    simp only
    unfold rpc.get_recent_block_hash.response
    rw [on_error_absent _ _ _ he]
    simp only [Bool.false_eq_true, if_false, on_response_eq, cb_events, World.store,
      World.emit, if_true, rpc_request.get_err_code]
    refine ⟨trivial, trivial, ?_⟩
    cases (w.heap rptr).cb_ with
    | none => simp
    | some cb => by_cases hm : req_kind.get_recent_block_hash ∈ cb.ifaces <;> simp [hm]
  | get_health => rw [hv] at hk; simp at hk
  | transfer d => rw [hv] at hk; simp at hk
  | signature_subscribe d => rw [hv] at hk; simp at hk

/-- Witness for `response_without_error_keeps_code`: the document `{"id":1}`, which
has neither `error` nor `result`, handled by the account query at address 2. -/
theorem response_without_error_keeps_code_witness :
    ((ex_doc_id 1).find_val 1 "error" = 0 ∧
      (ex_world_account.heap 2).kind = .get_account_info) ∧
    ((rpc_request.response ex_extern (ex_doc_id 1) 2 ex_world_account).heap 2).get_err_code =
      (ex_world_account.heap 2).get_err_code ∧
    (ex_world_account.heap 2).get_err_code = 0 :=
  ⟨⟨by decide, by decide⟩,
    (response_without_error_keeps_code ex_extern (ex_doc_id 1) 2 ex_world_account
      (by decide) (Or.inl (by decide))).1, by decide⟩

/-- Counterexample to C9 as stated: the account query at address 2 holds id 1 and
has a callback; the document `{"id":1}` has no error object and no `result`. The
response handler runs and calls the callback once, and the error code the callback
finds on the request is 0, the success state. -/
theorem malformed_response_counterexample :
    ex_world_account.rv_.getD 1 none = some 2 ∧
    (ex_doc_id 1).find_val 1 "error" = 0 ∧
    (ex_doc_id 1).find_val 1 "result" = 0 ∧
    ((rpc_client.parse_response ex_extern (ex_doc_id 1) ex_world_account).log.drop
      ex_world_account.log.length).map event.cb_err_code = [none, some 0] ∧
    ((rpc_client.parse_response ex_extern (ex_doc_id 1) ex_world_account).heap 2).get_err_code
      = 0 := by
  refine ⟨?_, ?_, ?_, ?_, ?_⟩ <;> decide

/-! ## Connections and log after a submit -/

/-- Connections and log after `add_request` are those before it. -/
theorem add_request_conn {X : extern_fns} {rptr : Nat} {w w2 : World}
    (h : rpc_client.add_request X rptr w = some w2) :
    w2.hptr_ = w.hptr_ ∧ w2.wptr_ = w.wptr_ ∧ w2.log = w.log := by
  cases hg : rpc_client.get_request_id w with
  | none => rw [add_request_none hg] at h; cases h
  | some r =>
    obtain ⟨id, w1⟩ := r
    obtain ⟨w3, e3, hreg, -, hl, -⟩ := add_request_some X rptr hg
    rw [h] at e3
    cases e3
    simp only [World.registry, Prod.mk.injEq] at hreg
    have hf : w1.hptr_ = w.hptr_ ∧ w1.wptr_ = w.wptr_ ∧ w1.log = w.log := by
      unfold rpc_client.get_request_id at hg
      split at hg
      · cases hg; exact ⟨rfl, rfl, rfl⟩
      · simp only at hg
        split at hg
        · cases hg; exact ⟨rfl, rfl, rfl⟩
        · cases hg
    exact ⟨hreg.1.trans hf.1, hreg.2.1.trans hf.2.1, hl.trans hf.2.2⟩

/-! ## Choice of the transport -/

/-- Only a signature subscription is not an HTTP request. -/
theorem get_is_http_iff (r : rpc_request) :
    r.get_is_http = true ↔ r.kind ≠ .signature_subscribe := by
  unfold rpc_request.get_is_http rpc_request.kind
  cases r.var <;> simp

/-- The class of a request object is the same after `add_request`. -/
theorem add_request_kind {X : extern_fns} {rptr : Nat} {w w2 : World}
    (h : rpc_client.add_request X rptr w = some w2) :
    (w2.heap rptr).kind = (w.heap rptr).kind := by
  obtain ⟨id, -, ho, -⟩ := add_request_object h
  rw [ho, (request_base X _ _).2.2.2.2.2]
  rfl

/-- C11: `send` picks the transport by the class of the request. It returns exactly
when `add_request` returns and the connection of the transport picked is set, and
it has then added to the log exactly one message, built from the message
`add_request` left in the writer: a websocket text frame if the request is a
signature subscription, and otherwise an HTTP `POST` with the header
`Content-Type: application/json` and the message as content. -/
theorem send_selects_transport (X : extern_fns) (w : World) (rptr : Nat) :
    ((∃ w2, rpc_client.send X rptr w = some w2) ↔
      ((∃ w1, rpc_client.add_request X rptr w = some w1) ∧
        (if (w.heap rptr).kind = .signature_subscribe then w.wptr_ else w.hptr_) = true)) ∧
    ∀ w2, rpc_client.send X rptr w = some w2 →
      (∃ w1, rpc_client.add_request X rptr w = some w1 ∧ w2.jw_ = w1.jw_) ∧
      ((w.heap rptr).kind = .signature_subscribe →
        w2.log = w.log ++ [event.ws_add_send ⟨true, w2.jw_, true⟩]) ∧
      ((w.heap rptr).kind ≠ .signature_subscribe →
        w2.log = w.log ++ [event.http_add_send
          ⟨"POST", "/", [("Content-Type", "application/json")], w2.jw_⟩]) := by
  constructor
  · constructor
    · rintro ⟨w2, h⟩
      obtain ⟨w1, h1, hc⟩ := send_cases h
      have hk := add_request_kind h1
      have hcn := add_request_conn h1
      refine ⟨⟨w1, h1⟩, ?_⟩
      rcases hc with ⟨hh, hp, -⟩ | ⟨hh, hp, -⟩
      · rw [get_is_http_iff, hk] at hh
        rw [if_neg hh, ← hcn.1]
        exact hp
      · have : ¬ (w1.heap rptr).get_is_http = true := by simp [hh]
        rw [get_is_http_iff, hk, not_not] at this
        rw [if_pos this, ← hcn.2.1]
        exact hp
    · rintro ⟨⟨w1, h1⟩, hp⟩
      have hk := add_request_kind h1
      have hcn := add_request_conn h1
      unfold rpc_client.send
      rw [h1]
      by_cases hs : (w.heap rptr).kind = .signature_subscribe
      · rw [if_pos hs] at hp
        have hh : ¬ (w1.heap rptr).get_is_http = true := by
          rw [get_is_http_iff, hk, not_not]; exact hs
        simp only [hh, if_false, hcn.2.1, hp, if_true, Bool.false_eq_true]
        exact ⟨_, rfl⟩
      · rw [if_neg hs] at hp
        have hh : (w1.heap rptr).get_is_http = true := by
          rw [get_is_http_iff, hk]; exact hs
        simp only [hh, if_true, hcn.1, hp]
        exact ⟨_, rfl⟩
  · intro w2 h
    obtain ⟨w1, h1, hc⟩ := send_cases h
    have hk := add_request_kind h1
    have hl := (add_request_conn h1).2.2
    refine ⟨⟨w1, h1, ?_⟩, ?_, ?_⟩
    · rcases hc with ⟨-, -, rfl⟩ | ⟨-, -, rfl⟩ <;> rfl
    · intro hs
      rcases hc with ⟨hh, -, -⟩ | ⟨-, -, rfl⟩
      · rw [get_is_http_iff, hk] at hh
        exact absurd hs hh
      · simp [World.emit, hl]
    · intro hs
      rcases hc with ⟨-, -, rfl⟩ | ⟨hh, -, -⟩
      · simp [World.emit, hl]
      · have : ¬ (w1.heap rptr).get_is_http = true := by simp [hh]
        rw [get_is_http_iff, hk] at this
        exact absurd hs this

/-- Witness for `send_selects_transport`: on a client with both connections, the
signature subscription at address 0 goes out as a websocket text frame and the
account query at address 2 as an HTTP `POST`. -/
theorem send_selects_transport_witness :
    (∃ w2, rpc_client.send ex_extern 0 ex_client_sub = some w2 ∧
      w2.log = [event.ws_add_send ⟨true, w2.jw_, true⟩]) ∧
    (∃ w2, rpc_client.send ex_extern 2 ex_client_sub = some w2 ∧
      w2.log = [event.http_add_send
        ⟨"POST", "/", [("Content-Type", "application/json")], w2.jw_⟩]) :=
  ⟨⟨(rpc_client.send ex_extern 0 ex_client_sub).getD ex_client_sub, rfl,
      ((send_selects_transport ex_extern ex_client_sub 0).2 _ rfl).2.1 (by decide)⟩,
    ⟨(rpc_client.send ex_extern 2 ex_client_sub).getD ex_client_sub, rfl,
      ((send_selects_transport ex_extern ex_client_sub 2).2 _ rfl).2.2 (by decide)⟩⟩

/-! ## The subscription map -/

theorem smap_find_erase_same (m : List (Nat × Nat)) (k : Nat) :
    smap_find (smap_erase m k) k = none := by
  unfold smap_find smap_erase
  rw [Option.map_eq_none', List.find?_eq_none]
  intro e he
  simp only [List.mem_filter, decide_eq_true_eq] at he
  simpa using he.2

theorem smap_find_erase_other (m : List (Nat × Nat)) {j k : Nat} (h : j ≠ k) :
    smap_find (smap_erase m k) j = smap_find m j := by
  unfold smap_find smap_erase
  rw [List.find?_filter]
  have hf : (fun a : Nat × Nat => decide (decide (a.1 ≠ k) = true ∧ decide (a.1 = j) = true)) =
      (fun e : Nat × Nat => decide (e.1 = j)) := by
    funext e
    by_cases h2 : e.1 = j
    · have h1 : e.1 ≠ k := fun h3 => h (h2.symm.trans h3)
      simp [h1, h2, h]
    · simp [h2]
  rw [hf]

theorem smap_find_set_same (m : List (Nat × Nat)) (k v : Nat) :
    smap_find (smap_set m k v) k = some v := by
  have h := smap_find_erase_same m k
  unfold smap_find at h
  rw [Option.map_eq_none'] at h
  unfold smap_set smap_find
  rw [List.find?_append, h]
  simp

theorem smap_find_set_other (m : List (Nat × Nat)) {j k : Nat} (v : Nat) (h : j ≠ k) :
    smap_find (smap_set m k v) j = smap_find m j := by
  rw [← smap_find_erase_other m h]
  unfold smap_set smap_find
  rw [List.find?_append]
  cases hf : List.find? (fun e => decide (e.1 = j)) (smap_erase m k) with
  | some e => rfl
  | none => simp [Ne.symm h]

theorem smap_set_entries (m : List (Nat × Nat)) (k v : Nat) :
    (smap_set m k v).filter (fun e => e.1 = k) = [(k, v)] := by
  unfold smap_set smap_erase
  rw [List.filter_append, List.filter_filter]
  simp

/-! ## The response to a subscribe call -/

/-- A request object of class `signature_subscribe` has the members of that
class. -/
theorem var_of_kind_subscribe {r : rpc_request} (h : r.kind = .signature_subscribe) :
    ∃ d, r.var = .signature_subscribe d := by
  unfold rpc_request.kind at h
  cases hv : r.var <;> rw [hv] at h <;> simp at h
  exact ⟨_, rfl⟩

/-- The response handler of a signature subscription on a document without error
object: the handler is logged and `add_notify` runs. -/
theorem subscribe_response_eq (X : extern_fns) (jt : jtree) (rptr : Nat) (w : World)
    (hk : (w.heap rptr).kind = .signature_subscribe) (he : jt.find_val 1 "error" = 0) :
    rpc_request.response X jt rptr w =
      rpc_subscription.add_notify jt rptr (w.emit (event.response rptr)) := by
  obtain ⟨d, hv⟩ := var_of_kind_subscribe hk
  unfold rpc_request.response
  have hh : (w.emit (event.response rptr)).heap = w.heap := rfl
  dsimp only
  rw [hh, hv]
  simp only
  unfold rpc.signature_subscribe.response
  rw [on_error_absent _ _ _ he]
  simp

/-- The call `add_notify` on a document with a `result`: the value of `result`
becomes the id of the request and the key of its entry in the map. -/
theorem sub_add_notify_present (jp : jtree) (rptr : Nat) (w : World)
    (h : jp.find_val 1 "result" ≠ 0) :
    rpc_subscription.add_notify jp rptr w =
      { w.store rptr ((w.heap rptr).set_id (jp.get_uint (jp.find_val 1 "result"))) with
        smap_ := smap_set w.smap_ (jp.get_uint (jp.find_val 1 "result")) rptr } := by
  unfold rpc_subscription.add_notify rpc_client.add_notify
  simp only [h, ne_eq, not_false_eq_true, if_true]
  simp [World.store, rpc_request.get_id, rpc_request.set_id]

theorem sub_add_notify_absent (jp : jtree) (rptr : Nat) (w : World)
    (h : jp.find_val 1 "result" = 0) : rpc_subscription.add_notify jp rptr w = w := by
  unfold rpc_subscription.add_notify
  simp [h]

/-- C12: when slot `k` holds the signature subscription `r` and a document without
error object carries id `k` and result `s`, then after `parse_response` the
subscription map has exactly one entry for `s`, which maps it to `r`, the entries of
other keys are as before, `r` carries `s` as its id, slot `k` is empty and `k` is
the last entry of the free list; the response handler of `r` is the only call
logged. -/
theorem subscribe_response_registers (X : extern_fns) (jp : jtree) (w : World) (k r s : Nat)
    (hid : jp.find_val 1 "id" ≠ 0) (hk : jp.get_uint (jp.find_val 1 "id") = k)
    (hs : w.rv_.getD k none = some r) (hv : (w.heap r).kind = .signature_subscribe)
    (he : jp.find_val 1 "error" = 0) (hr : jp.find_val 1 "result" ≠ 0)
    (hsub : jp.get_uint (jp.find_val 1 "result") = s) :
    smap_find (rpc_client.parse_response X jp w).smap_ s = some r ∧
    (rpc_client.parse_response X jp w).smap_.filter (fun e => e.1 = s) = [(s, r)] ∧
    (∀ j, j ≠ s → smap_find (rpc_client.parse_response X jp w).smap_ j = smap_find w.smap_ j) ∧
    ((rpc_client.parse_response X jp w).heap r).get_id = s ∧
    (rpc_client.parse_response X jp w).rv_.getD k none = none ∧
    (rpc_client.parse_response X jp w).reuse_ = w.reuse_ ++ [k] ∧
    (rpc_client.parse_response X jp w).log = w.log ++ [event.response r] := by
  subst hk
  subst hsub
  have hreg := parse_response_hit_registry (X := X) hid hs
  simp only [World.registry, Prod.mk.injEq] at hreg
  obtain ⟨-, -, -, r4, r5⟩ := hreg
  have hlt : jp.get_uint (jp.find_val 1 "id") < w.rv_.length := by
    by_contra hn
    rw [getD_of_length_le _ _ (Nat.le_of_not_lt hn)] at hs
    cases hs
  have hclr : (rpc_client.parse_response X jp w).rv_.getD
      (jp.get_uint (jp.find_val 1 "id")) none = none := by
    rw [r4, getD_set, if_pos ⟨rfl, hlt⟩]
  refine ⟨?_, ?_, ?_, ?_, hclr, r5, ?_⟩ <;>
    rw [parse_response_hit hid hs, subscribe_response_eq X jp r _ (by exact hv) he,
      sub_add_notify_present jp r _ hr]
  · exact smap_find_set_same _ _ _
  · exact smap_set_entries _ _ _
  · intro j hj
    exact smap_find_set_other _ _ hj
  · simp [World.store, rpc_request.get_id, rpc_request.set_id]
  · rfl

set_option maxRecDepth 100000 in
/-- Witness for `subscribe_response_registers`: the signature subscription at
address 0 holds request id 2 and the document is `{"id":2,"result":55}`; afterwards
the map holds subscription 55 for the request. -/
theorem subscribe_response_registers_witness :
    (ex_world_sub.rv_.getD 2 none = some 0 ∧
      (ex_world_sub.heap 0).kind = .signature_subscribe) ∧
    (rpc_client.parse_response ex_extern ex_doc_subscribed ex_world_sub).smap_ = [(55, 0)] ∧
    smap_find (rpc_client.parse_response ex_extern ex_doc_subscribed ex_world_sub).smap_ 55 =
      some 0 :=
  ⟨⟨by decide, by decide⟩, by decide,
    (subscribe_response_registers ex_extern ex_doc_subscribed ex_world_sub 2 0 55
      (by decide) (by decide) (by decide) (by decide) (by decide) (by decide) (by decide)).1⟩

/-! ## Notifications -/

theorem smap_on_response (T : req_kind) (rptr : Nat) (w : World) :
    (on_response T rptr w).smap_ = w.smap_ := by
  rw [on_response_eq]

theorem smap_on_error (jt : jtree) (T : req_kind) (rptr : Nat) (w : World) :
    (on_error jt T rptr w).2.smap_ = w.smap_ := by
  unfold on_error
  by_cases h : jt.find_val 1 "error" = 0
  · simp [h]
  · simp only [h, if_false]
    rw [smap_on_response]
    rfl

/-- The notification handler of a request of any class reports that the
subscription is to be removed, leaves registry and subscription map as they are,
and logs its own call followed by calls of the callback of the request only. -/
theorem notify_spec (jt : jtree) (rptr : Nat) (w : World) :
    (rpc_request.notify jt rptr w).1 = true ∧
    (rpc_request.notify jt rptr w).2.smap_ = w.smap_ ∧
    only_callbacks rptr (w.emit (event.notify rptr)) (rpc_request.notify jt rptr w).2 := by
  unfold rpc_request.notify
  have hs : (w.emit (event.notify rptr)).smap_ = w.smap_ := rfl
  generalize w.emit (event.notify rptr) = w1 at hs ⊢
  dsimp only
  split
  · unfold rpc.signature_subscribe.notify
    have h1 := smap_on_error jt .signature_subscribe rptr w1
    have h2 := only_callbacks_on_error jt .signature_subscribe rptr w1
    revert h1 h2
    generalize on_error jt .signature_subscribe rptr w1 = p
    obtain ⟨err, w2⟩ := p
    intro h1 h2
    simp only at h1 h2 ⊢
    split
    · exact ⟨rfl, h1.trans hs, h2⟩
    · refine ⟨rfl, ?_, only_callbacks_trans h2 (only_callbacks_on_response _ _ _)⟩
      rw [smap_on_response]
      exact h1.trans hs
  · exact ⟨rfl, hs, only_callbacks_of_log rfl⟩

/-- A notification for a subscription id in the map: the notification handler of
the request runs and the entry is erased. -/
theorem parse_response_notify_hit {X : extern_fns} {jp : jtree} {w : World} {r : Nat}
    (hid : jp.find_val 1 "id" = 0)
    (hst : jp.find_val (jp.find_val 1 "params") "subscription" ≠ 0)
    (hf : smap_find w.smap_
      (jp.get_uint (jp.find_val (jp.find_val 1 "params") "subscription")) = some r) :
    rpc_client.parse_response X jp w =
      { (rpc_request.notify jp r w).2 with
        smap_ := smap_erase (rpc_request.notify jp r w).2.smap_
          (jp.get_uint (jp.find_val (jp.find_val 1 "params") "subscription")) } := by
  unfold rpc_client.parse_response
  simp only [hid, ne_eq, not_true_eq_false, if_false, hst, not_false_eq_true, if_true, hf]
  have h1 := (notify_spec jp r w).1
  revert h1
  generalize rpc_request.notify jp r w = p
  obtain ⟨rm, w1⟩ := p
  intro h1
  simp only at h1
  simp [h1]

/-- A notification for a subscription id that is not in the map is dropped. -/
theorem parse_response_notify_miss {X : extern_fns} {jp : jtree} {w : World}
    (hid : jp.find_val 1 "id" = 0)
    (hf : smap_find w.smap_
      (jp.get_uint (jp.find_val (jp.find_val 1 "params") "subscription")) = none) :
    rpc_client.parse_response X jp w = w := by
  unfold rpc_client.parse_response
  simp only [hid, ne_eq, not_true_eq_false, if_false, hf]
  split <;> rfl

/-- C13: a notification document (no `id`, `params.subscription` = `s`) for a
subscription id `s` that the map holds for request `r` runs the notification
handler of `r` exactly once (followed only by calls of the callback of `r`) and
erases the entry of `s`, leaving the other entries and the registry as they are;
the same notification delivered again reaches no request and leaves the state
unchanged. A notification for a subscription id the map does not hold is dropped:
the state is unchanged and no handler is called. This holds for a request of any
class, in particular for a signature subscription. -/
theorem notification_routed_once (X : extern_fns) (jp : jtree) (w : World) (s : Nat)
    (hid : jp.find_val 1 "id" = 0)
    (hst : jp.find_val (jp.find_val 1 "params") "subscription" ≠ 0)
    (hs : jp.get_uint (jp.find_val (jp.find_val 1 "params") "subscription") = s) :
    (∀ r, smap_find w.smap_ s = some r →
      (∃ cbs, (rpc_client.parse_response X jp w).log = w.log ++ event.notify r :: cbs ∧
        ∀ e ∈ cbs, ∃ cb q, e = event.on_response cb r q) ∧
      smap_find (rpc_client.parse_response X jp w).smap_ s = none ∧
      (∀ j, j ≠ s →
        smap_find (rpc_client.parse_response X jp w).smap_ j = smap_find w.smap_ j) ∧
      (rpc_client.parse_response X jp w).registry = w.registry ∧
      rpc_client.parse_response X jp (rpc_client.parse_response X jp w) =
        rpc_client.parse_response X jp w) ∧
    (smap_find w.smap_ s = none → rpc_client.parse_response X jp w = w) := by
  subst hs
  constructor
  · intro r hf
    obtain ⟨-, n2, cbs, e1, e2⟩ := notify_spec jp r w
    have hp := parse_response_notify_hit (X := X) hid hst hf
    have hnone : smap_find (rpc_client.parse_response X jp w).smap_
        (jp.get_uint (jp.find_val (jp.find_val 1 "params") "subscription")) = none := by
      rw [hp]
      exact smap_find_erase_same _ _
    refine ⟨⟨cbs, ?_, e2⟩, hnone, ?_, ?_, parse_response_notify_miss hid hnone⟩
    · rw [hp]
      simp only [e1]
      simp [World.emit]
    · intro j hj
      rw [hp]
      simp only
      rw [smap_find_erase_other _ hj, n2]
    · rw [hp]
      exact registry_notify jp r w
  · intro hf
    exact parse_response_notify_miss hid hf

set_option maxRecDepth 100000 in
/-- Witness for `notification_routed_once`: subscription 55 is held for the request
at address 0 and the document is
`{"params":{"subscription":55,"result":{"err":null}}}`; the callback of the request
fires once and subscription 55 is removed from the map. -/
theorem notification_routed_once_witness :
    (ex_doc_notify.find_val 1 "id" = 0 ∧
      ex_doc_notify.get_uint (ex_doc_notify.find_val (ex_doc_notify.find_val 1 "params")
        "subscription") = 55 ∧
      smap_find ex_world_subscribed.smap_ 55 = some 0) ∧
    smap_find (rpc_client.parse_response ex_extern ex_doc_notify ex_world_subscribed).smap_ 55 =
      none ∧
    ((rpc_client.parse_response ex_extern ex_doc_notify ex_world_subscribed).log.drop
      ex_world_subscribed.log.length).map event.cb_err_code = [none, some 0] ∧
    rpc_client.parse_response ex_extern ex_doc_notify
        (rpc_client.parse_response ex_extern ex_doc_notify ex_world_subscribed) =
      rpc_client.parse_response ex_extern ex_doc_notify ex_world_subscribed :=
  have h := (notification_routed_once ex_extern ex_doc_notify ex_world_subscribed 55
    (by decide) (by decide) (by decide)).1 0 (by decide)
  ⟨⟨by decide, by decide, by decide⟩, h.2.1, by decide, h.2.2.2.2⟩

/-- The notification handler of a signature subscription. -/
theorem subscribe_notify_eq (jt : jtree) (rptr : Nat) (w : World)
    (hk : (w.heap rptr).kind = .signature_subscribe) :
    rpc_request.notify jt rptr w =
      if jt.find_val 1 "error" = 0 then
        (true, on_response .signature_subscribe rptr (w.emit (event.notify rptr)))
      else
        (true, on_response .signature_subscribe rptr ((w.emit (event.notify rptr)).store rptr
          { w.heap rptr with
            ec_ := to_int (jt.get_int (jt.find_val (jt.find_val 1 "error") "code")),
            emsg_ := jt.get_text (jt.find_val (jt.find_val 1 "error") "message") })) := by
  obtain ⟨d, hv⟩ := var_of_kind_subscribe hk
  unfold rpc_request.notify
  have hh : (w.emit (event.notify rptr)).heap = w.heap := rfl
  dsimp only
  rw [hh, hv]
  simp only
  unfold rpc.signature_subscribe.notify
  by_cases he : jt.find_val 1 "error" = 0
  · rw [on_error_absent _ _ _ he, if_pos he]
    simp
  · rw [on_error_present _ _ _ he, if_neg he]
    simp [hh, hv]

/-- C14 (as amended): a notification routed to a signature subscription delivers
success or error by the top-level JSON-RPC `error` object of the document alone. If
the document has none, the request object is left as it is and its callback (when
it has one that casts to `rpc_sub_i<signature_subscribe>`) is called once with the
request in the error state it had before, whatever the `err` member of the result
holds; if the document has an `error` object, code and message of that object are
stored on the request before the callback is called. -/
theorem notification_outcome (jt : jtree) (rptr : Nat) (w : World)
    (hk : (w.heap rptr).kind = .signature_subscribe) :
    (jt.find_val 1 "error" = 0 →
      (rpc_request.notify jt rptr w).2.heap = w.heap ∧
      (rpc_request.notify jt rptr w).2.log = w.log ++ [event.notify rptr] ++
        match (w.heap rptr).cb_ with
        | some cb =>
          if req_kind.signature_subscribe ∈ cb.ifaces then
            [event.on_response cb rptr (w.heap rptr)]
          else []
        | none => []) ∧
    (jt.find_val 1 "error" ≠ 0 →
      (rpc_request.notify jt rptr w).2.heap rptr =
        { w.heap rptr with
          ec_ := to_int (jt.get_int (jt.find_val (jt.find_val 1 "error") "code")),
          emsg_ := jt.get_text (jt.find_val (jt.find_val 1 "error") "message") } ∧
      (rpc_request.notify jt rptr w).2.log = w.log ++ [event.notify rptr] ++
        match (w.heap rptr).cb_ with
        | some cb =>
          if req_kind.signature_subscribe ∈ cb.ifaces then
            [event.on_response cb rptr { w.heap rptr with
              ec_ := to_int (jt.get_int (jt.find_val (jt.find_val 1 "error") "code")),
              emsg_ := jt.get_text (jt.find_val (jt.find_val 1 "error") "message") }]
          else []
        | none => []) := by
  rw [subscribe_notify_eq jt rptr w hk]
  constructor
  · intro he
    rw [if_pos he, on_response_eq]
    refine ⟨rfl, ?_⟩
    simp only [cb_events, World.emit]
  · intro he
    rw [if_neg he, on_response_eq]
    constructor
    · simp [World.store]
    · simp only [cb_events, World.store, World.emit, if_true]

set_option maxRecDepth 100000 in
/-- Witness for `notification_outcome`: the signature subscription at address 0,
registered under subscription 55, and the notification
`{"params":{"subscription":55,"result":{"err":null}}}`. -/
theorem notification_outcome_witness :
    (ex_world_subscribed.heap 0).kind = .signature_subscribe ∧
    ex_doc_notify.find_val 1 "error" = 0 ∧
    (rpc_request.notify ex_doc_notify 0 ex_world_subscribed).2.heap =
      ex_world_subscribed.heap :=
  ⟨by decide, by decide,
    ((notification_outcome ex_doc_notify 0 ex_world_subscribed (by decide)).1
      (by decide)).1⟩

set_option maxRecDepth 100000 in
/-- Counterexample to C14 as stated: the signature subscription at address 0 is
registered under subscription 55 and has a callback; the notification
`{"params":{"subscription":55,"result":{"err":{"InstructionError":"Custom"}}}}`
reports a failed transaction by a non-null `err` in its result. The notification
handler runs, the callback is called once, and the error code it finds on the
request is 0, the success state. -/
theorem failed_notification_counterexample :
    smap_find ex_world_subscribed.smap_ 55 = some 0 ∧
    ex_doc_notify_failed.find_val 1 "id" = 0 ∧
    ex_doc_notify_failed.get_uint (ex_doc_notify_failed.find_val
      (ex_doc_notify_failed.find_val 1 "params") "subscription") = 55 ∧
    ex_doc_notify_failed.find_val (ex_doc_notify_failed.find_val (ex_doc_notify_failed.find_val
      (ex_doc_notify_failed.find_val 1 "params") "result") "err") "InstructionError" ≠ 0 ∧
    ((rpc_client.parse_response ex_extern ex_doc_notify_failed ex_world_subscribed).log.drop
      ex_world_subscribed.log.length).map event.cb_err_code = [none, some 0] ∧
    ((rpc_client.parse_response ex_extern ex_doc_notify_failed ex_world_subscribed).heap
      0).get_err_code = 0 := by
  refine ⟨?_, ?_, ?_, ?_, ?_, ?_⟩ <;> decide

/-! ## Registering and deregistering a subscription -/

/-- C15 (as amended): registration and deregistration are keyed by the value of the
id field of the request (`get_id`), which `rpc_subscription::add_notify` sets to the
server-assigned subscription id before it registers the request. `add_notify( r )`
maps that value to `r` and changes no entry of another key; `remove_notify( r )`
changes no entry of another key, removes the entry of `r` when the map holds `r`
under that value, and leaves registry, request objects and log as they are. -/
theorem notify_keyed_by_id_field (rptr : Nat) (w : World) :
    smap_find (rpc_client.add_notify rptr w).smap_ (w.heap rptr).get_id = some rptr ∧
    (∀ j, j ≠ (w.heap rptr).get_id →
      smap_find (rpc_client.add_notify rptr w).smap_ j = smap_find w.smap_ j) ∧
    (∀ j, j ≠ (w.heap rptr).get_id →
      smap_find (rpc_client.remove_notify rptr w).smap_ j = smap_find w.smap_ j) ∧
    (smap_find w.smap_ (w.heap rptr).get_id = some rptr →
      smap_find (rpc_client.remove_notify rptr w).smap_ (w.heap rptr).get_id = none) ∧
    (rpc_client.remove_notify rptr w).registry = w.registry ∧
    (rpc_client.remove_notify rptr w).heap = w.heap ∧
    (rpc_client.remove_notify rptr w).log = w.log ∧
    ∀ (jp : jtree), jp.find_val 1 "result" ≠ 0 →
      ((rpc_subscription.add_notify jp rptr w).heap rptr).get_id =
        jp.get_uint (jp.find_val 1 "result") ∧
      smap_find (rpc_subscription.add_notify jp rptr w).smap_
        (jp.get_uint (jp.find_val 1 "result")) = some rptr := by
  refine ⟨smap_find_set_same _ _ _, fun j hj => smap_find_set_other _ _ hj, ?_, ?_,
    registry_remove_notify _ _, ?_, ?_, ?_⟩
  · intro j hj
    unfold rpc_client.remove_notify
    split
    · exact smap_find_erase_other _ hj
    · rfl
  · intro h
    unfold rpc_client.remove_notify
    rw [h]
    exact smap_find_erase_same _ _
  · unfold rpc_client.remove_notify
    split <;> rfl
  · unfold rpc_client.remove_notify
    split <;> rfl
  · intro jp hr
    rw [sub_add_notify_present jp rptr w hr]
    exact ⟨by simp [World.store, rpc_request.get_id, rpc_request.set_id],
      smap_find_set_same _ _ _⟩

set_option maxRecDepth 100000 in
/-- Witness for `notify_keyed_by_id_field`: the subscription at address 0 is
registered under subscription 55, which its id field holds; deregistering it
removes that entry. -/
theorem notify_keyed_by_id_field_witness :
    ((ex_world_subscribed.heap 0).get_id = 55 ∧
      smap_find ex_world_subscribed.smap_ 55 = some 0) ∧
    smap_find (rpc_client.remove_notify 0 ex_world_subscribed).smap_
      (ex_world_subscribed.heap 0).get_id = none :=
  ⟨⟨by decide, by decide⟩,
    (notify_keyed_by_id_field 0 ex_world_subscribed).2.2.2.1 (by decide)⟩

set_option maxRecDepth 100000 in
/-- Counterexample to C15 as stated: in `ex_world_pending` the subscription at
address 1 has been assigned request id 1 and has not received its subscription id
(slot 1 holds it), while the map holds subscription id 1 for the subscription at
address 0. Deregistering the request at address 1 erases the entry of subscription
id 1, which belongs to the request at address 0. -/
theorem remove_notify_counterexample :
    ex_world_pending.rv_.getD 1 none = some 1 ∧
    (ex_world_pending.heap 1).get_id = 1 ∧
    ex_world_pending.smap_ = [(1, 0)] ∧
    smap_find ex_world_pending.smap_ 1 = some 0 ∧
    (rpc_subscription.remove_notify 1 ex_world_pending).smap_ = [] ∧
    smap_find (rpc_subscription.remove_notify 1 ex_world_pending).smap_ 1 = none := by
  refine ⟨?_, ?_, ?_, ?_, ?_, ?_⟩ <;> decide

/-! ## The result of an account query -/

/-- C16 (as amended): on a document without error object that yields slot `s`,
executable flag `e`, lamports `l`, data `d`, owner `o` and rent epoch `p`, the
response handler of an account query stores these in the request, leaves its error
code as it was (0 on a request that has seen no error, the code of the earlier
error on a request object submitted again after an error response), and then calls
the callback (when the request has one that casts to `rpc_sub_i<get_account_info>`)
once, with the request in that state: the getters return `s`, `e`, `l`, `d`, `o`,
`p`. -/
theorem account_info_response (X : extern_fns) (jt : jtree) (rptr : Nat) (w : World)
    (d0 : rpc.get_account_info) (s : Nat) (e : Bool) (l : Nat) (d o : String) (p : Nat)
    (hv : (w.heap rptr).var = .get_account_info d0)
    (hdoc : account_info_doc jt s e l d o p) :
    (rpc_request.response X jt rptr w).heap rptr =
      { w.heap rptr with var := .get_account_info ⟨d0.acc_, s, l, p, d, o, e⟩ } ∧
    ((rpc_request.response X jt rptr w).heap rptr).account_info_getters =
      some ⟨s, e, l, d, o, p⟩ ∧
    ((rpc_request.response X jt rptr w).heap rptr).get_err_code = (w.heap rptr).get_err_code ∧
    (rpc_request.response X jt rptr w).log = w.log ++ [event.response rptr] ++
      match (w.heap rptr).cb_ with
      | some cb =>
        if req_kind.get_account_info ∈ cb.ifaces then
          [event.on_response cb rptr
            { w.heap rptr with var := .get_account_info ⟨d0.acc_, s, l, p, d, o, e⟩ }]
        else []
      | none => [] := by
  obtain ⟨he, h1, h2, h3, h4, h5, h6⟩ := hdoc
  have key : rpc_request.response X jt rptr w =
      on_response .get_account_info rptr ((w.emit (event.response rptr)).store rptr
        { w.heap rptr with var := .get_account_info ⟨d0.acc_, s, l, p, d, o, e⟩ }) := by
    unfold rpc_request.response
    have hh : (w.emit (event.response rptr)).heap = w.heap := rfl
    dsimp only
    rw [hh, hv]
    simp only
    unfold rpc.get_account_info.response
    rw [on_error_absent _ _ _ he]
    simp only [Bool.false_eq_true, if_false, h1, h2, h3, h4, h5, h6, hh]
  rw [key, on_response_eq]
  refine ⟨?_, ?_, ?_, ?_⟩
  · simp [World.store]
  · simp [World.store, rpc_request.account_info_getters]
  · simp [World.store, rpc_request.get_err_code]
  · simp only [cb_events, World.store, World.emit, if_true]

set_option maxRecDepth 100000 in
/-- Witness for `account_info_response`: the account query at address 2 holds id 1
and the document is the one of the scenario; the callback finds slot 100,
executable false, lamports 500 and rent epoch 3 on the request. -/
theorem account_info_response_witness :
    account_info_doc ex_doc_account 100 false 500 "..." "..." 3 ∧
    ex_world_account.rv_.getD 1 none = some 2 ∧
    ((rpc_request.response ex_extern ex_doc_account 2 ex_world_account).heap
      2).account_info_getters = some ⟨100, false, 500, "...", "...", 3⟩ ∧
    ((rpc_client.parse_response ex_extern ex_doc_account ex_world_account).log.drop
      ex_world_account.log.length).map event.cb_account_info =
      [none, some ⟨100, false, 500, "...", "...", 3⟩] :=
  have hd : account_info_doc ex_doc_account 100 false 500 "..." "..." 3 := by
    refine ⟨?_, ?_, ?_, ?_, ?_, ?_, ?_⟩ <;> decide
  ⟨hd, by decide,
    (account_info_response ex_extern ex_doc_account 2 ex_world_account
      (rpc.get_account_info.mk_new hash.zero) 100 false 500 "..." "..." 3 (by decide) hd).2.1,
    by decide⟩

set_option maxRecDepth 100000 in
/-- Counterexample to C16 as stated: the account query at address 2 has received
the error document `{"id":1,"error":{"code":-32602,"message":"invalid params"}}`
and has been submitted again, so that it holds id 1 in `ex_world_reused`. The
document of the scenario is delivered: the response handler runs, the callback is
called once and finds slot 100, executable false, lamports 500 and rent epoch 3 on
the request, and the error code it finds is -32602, not the success state. -/
theorem account_info_reused_counterexample :
    reachable ex_extern ex_world_reused ∧
    account_info_doc ex_doc_account 100 false 500 "..." "..." 3 ∧
    ex_world_reused.rv_.getD 1 none = some 2 ∧
    ((rpc_client.parse_response ex_extern ex_doc_account ex_world_reused).log.drop
      ex_world_reused.log.length).map event.cb_account_info =
      [none, some ⟨100, false, 500, "...", "...", 3⟩] ∧
    ((rpc_client.parse_response ex_extern ex_doc_account ex_world_reused).log.drop
      ex_world_reused.log.length).map event.cb_err_code = [none, some (-32602)] ∧
    ((rpc_client.parse_response ex_extern ex_doc_account ex_world_reused).heap 2).get_err_code
      = -32602 :=
  have hd : account_info_doc ex_doc_account 100 false 500 "..." "..." 3 := by
    refine ⟨?_, ?_, ?_, ?_, ?_, ?_, ?_⟩ <;> decide
  ⟨⟨ex_heap, [.set_http_conn, .send 2, .parse_response ex_doc_error, .send 2], rfl⟩, hd,
    by decide, by decide, by decide, by decide⟩

/-! ## The request envelope -/

/-- C17: the message a submit (`add_request`, also through `send`) leaves in the
writer is one object whose keys are written in the order `jsonrpc` = "2.0", `id` =
the id just stored on the request, `method`, and `params` where the class has
parameters: `getAccountInfo` with the array of the account key; `getRecentBlockhash`
and `getHealth` without `params`; `sendTransaction` with the array of the base64
value of the whole transaction buffer and the object `encoding` = "base64";
`signatureSubscribe` with the array of the signature. -/
theorem envelope_layout (X : extern_fns) (w w2 : World) (rptr : Nat)
    (h : rpc_client.add_request X rptr w = some w2 ∨ rpc_client.send X rptr w = some w2) :
    (∀ d, (w.heap rptr).var = .get_account_info d →
      w2.jw_ = [jw_call.add_val_obj, jw_call.add_key_str "jsonrpc" "2.0",
        jw_call.add_key_uint "id" (w2.heap rptr).get_id,
        jw_call.add_key_str "method" "getAccountInfo", jw_call.add_key_arr "params",
        jw_call.add_val_hash d.acc_, jw_call.pop, jw_call.pop]) ∧
    (∀ d, (w.heap rptr).var = .get_recent_block_hash d →
      w2.jw_ = [jw_call.add_val_obj, jw_call.add_key_str "jsonrpc" "2.0",
        jw_call.add_key_uint "id" (w2.heap rptr).get_id,
        jw_call.add_key_str "method" "getRecentBlockhash", jw_call.pop]) ∧
    ((w.heap rptr).var = .get_health →
      w2.jw_ = [jw_call.add_val_obj, jw_call.add_key_str "jsonrpc" "2.0",
        jw_call.add_key_uint "id" (w2.heap rptr).get_id,
        jw_call.add_key_str "method" "getHealth", jw_call.pop]) ∧
    (∀ d, (w.heap rptr).var = .transfer d →
      w2.jw_ = [jw_call.add_val_obj, jw_call.add_key_str "jsonrpc" "2.0",
        jw_call.add_key_uint "id" (w2.heap rptr).get_id,
        jw_call.add_key_str "method" "sendTransaction", jw_call.add_key_arr "params",
        jw_call.add_val_enc_base64 (rpc.transfer.build_tx X d).buf, jw_call.add_val_obj,
        jw_call.add_key_str "encoding" "base64", jw_call.pop, jw_call.pop, jw_call.pop]) ∧
    (∀ d, (w.heap rptr).var = .signature_subscribe d →
      w2.jw_ = [jw_call.add_val_obj, jw_call.add_key_str "jsonrpc" "2.0",
        jw_call.add_key_uint "id" (w2.heap rptr).get_id,
        jw_call.add_key_str "method" "signatureSubscribe", jw_call.add_key_arr "params",
        jw_call.add_val_sig d.sig_, jw_call.pop, jw_call.pop]) := by
  have key : ∃ w1, rpc_client.add_request X rptr w = some w1 ∧ w2.heap = w1.heap ∧
      w2.jw_ = w1.jw_ := by
    rcases h with h | h
    · exact ⟨w2, h, rfl, rfl⟩
    · obtain ⟨w1, h1, -, hh, -, hj⟩ := send_add_request h
      exact ⟨w1, h1, hh, hj⟩
  obtain ⟨w1, h1, hh, hj⟩ := key
  obtain ⟨id, hid, -, hjw⟩ := add_request_object h1
  rw [hj, hh, hjw]
  have hg : (w1.heap rptr).get_id = id := hid
  rw [hg]
  refine ⟨?_, ?_, ?_, ?_, ?_⟩
  · intro d hv
    unfold rpc_request.request
    simp [rpc_request.set_id, rpc_request.set_rpc_client, hv]
  · intro d hv
    unfold rpc_request.request
    simp [rpc_request.set_id, rpc_request.set_rpc_client, hv]
  · intro hv
    unfold rpc_request.request
    simp [rpc_request.set_id, rpc_request.set_rpc_client, hv]
  · intro d hv
    unfold rpc_request.request
    simp [rpc_request.set_id, rpc_request.set_rpc_client, hv, transfer_request_eq]
  · intro d hv
    unfold rpc_request.request
    simp [rpc_request.set_id, rpc_request.set_rpc_client, hv]

set_option maxRecDepth 100000 in
/-- Witness for `envelope_layout`: the health query at address 0 submitted in the
example state is assigned the freed id 2. -/
theorem envelope_layout_witness :
    (ex_world.heap 0).var = .get_health ∧
    ((rpc_client.send ex_extern 0 ex_world).getD ex_world).jw_ =
      [jw_call.add_val_obj, jw_call.add_key_str "jsonrpc" "2.0", jw_call.add_key_uint "id" 2,
        jw_call.add_key_str "method" "getHealth", jw_call.pop] :=
  ⟨by decide,
    ((envelope_layout ex_extern ex_world ((rpc_client.send ex_extern 0 ex_world).getD ex_world)
      0 (Or.inr rfl)).2.2.1 (by decide)).trans (by decide)⟩

/-! ## Id 0 and the size of the registry -/

/-- C18: id 0 is never used. In every state a fresh client reaches, slot 0 of the
slot array holds no request, 0 is not on the free list, and a submit (`add_request`,
also through `send`) that returns assigns an id other than 0. -/
theorem id_zero_unused (X : extern_fns) (w : World) (hr : reachable X w) :
    w.rv_.getD 0 none = none ∧ 0 ∉ w.reuse_ ∧
    ∀ rptr w2,
      (rpc_client.add_request X rptr w = some w2 ∨ rpc_client.send X rptr w = some w2) →
      (w2.heap rptr).get_id ≠ 0 ∧ 1 ≤ (w2.heap rptr).get_id ∧
        (w2.heap rptr).get_id ≤ w2.id_ := by
  have hw := registry_ok_of_reachable hr
  refine ⟨hw.zero, ?_, ?_⟩
  · intro h0
    have := (hw.free_range 0 h0).1
    omega
  · intro rptr w2 h
    have key : ∀ w1, rpc_client.add_request X rptr w = some w1 →
        1 ≤ (w1.heap rptr).id_ ∧ (w1.heap rptr).id_ ≤ w1.id_ := by
      intro w1 h1
      obtain ⟨hc, -⟩ := add_request_cases hw h1
      rcases hc with ⟨ys, e1, -, e3, -⟩ | ⟨-, e2, e3, -⟩
      · have := hw.free_range (w1.heap rptr).id_ (by rw [e1]; simp)
        rw [e3]
        exact this
      · rw [e2, e3]
        omega
    have hb : 1 ≤ (w2.heap rptr).id_ ∧ (w2.heap rptr).id_ ≤ w2.id_ := by
      rcases h with h | h
      · exact key w2 h
      · obtain ⟨w1, h1, hreg, hh, -⟩ := send_add_request h
        simp only [World.registry, Prod.mk.injEq] at hreg
        rw [hh, hreg.2.2.1]
        exact key w1 h1
    unfold rpc_request.get_id
    exact ⟨by omega, hb.1, hb.2⟩

/-- Witness for `id_zero_unused`: the example state. -/
theorem id_zero_unused_witness :
    reachable ex_extern ex_world ∧
    ex_world.rv_.getD 0 none = none ∧ 0 ∉ ex_world.reuse_ ∧
    ∀ rptr w2,
      (rpc_client.add_request ex_extern rptr ex_world = some w2 ∨
        rpc_client.send ex_extern rptr ex_world = some w2) →
      (w2.heap rptr).get_id ≠ 0 ∧ 1 ≤ (w2.heap rptr).get_id ∧
        (w2.heap rptr).get_id ≤ w2.id_ :=
  have hr : reachable ex_extern ex_world :=
    ⟨ex_heap, [.set_http_conn, .send 0, .send 2, .send 3, .parse_response (ex_doc_id 2)], rfl⟩
  ⟨hr, id_zero_unused ex_extern ex_world hr⟩

theorem occupied_set_some (l : List (Option Nat)) (i r : Nat) (hi : i < l.length)
    (h : l.getD i none = none) : occupied (l.set i (some r)) = occupied l + 1 := by
  unfold occupied
  induction l generalizing i with
  | nil => simp at hi
  | cons a l ih =>
    cases i with
    | zero =>
      simp only [List.getD_cons_zero] at h
      subst h
      simp [List.countP_cons]
    | succ i =>
      simp only [List.getD_cons_succ] at h
      simp only [List.length_cons, Nat.add_lt_add_iff_right] at hi
      simp only [List.set_cons_succ, List.countP_cons, ih i hi h]
      omega

theorem occupied_set_none (l : List (Option Nat)) (i r : Nat)
    (h : l.getD i none = some r) : occupied (l.set i none) + 1 = occupied l := by
  unfold occupied
  induction l generalizing i with
  | nil => simp at h
  | cons a l ih =>
    cases i with
    | zero =>
      simp only [List.getD_cons_zero] at h
      subst h
      simp [List.countP_cons]
    | succ i =>
      simp only [List.getD_cons_succ] at h
      simp only [List.set_cons_succ, List.countP_cons]
      have := ih i h
      omega

theorem occupied_resize (l : List (Option Nat)) (n : Nat) (h : l.length ≤ n) :
    occupied (resize l n none) = occupied l := by
  unfold occupied resize
  rw [List.take_of_length_le h, List.countP_append]
  simp [List.countP_replicate]

theorem count_ok_congr {w w1 : World} (h : w1.registry = w.registry) (hw : count_ok w) :
    count_ok w1 := by
  simp only [World.registry, Prod.mk.injEq] at h
  obtain ⟨-, -, h1, h2, h3⟩ := h
  unfold count_ok at hw ⊢
  rw [h1, h2, h3]
  exact hw

theorem count_ok_add_request {X : extern_fns} {rptr : Nat} {w w2 : World}
    (hw : registry_ok w) (hc : count_ok w)
    (h : rpc_client.add_request X rptr w = some w2) : count_ok w2 := by
  obtain ⟨hcs, -⟩ := add_request_cases hw h
  unfold count_ok at hc ⊢
  have hlen := hw.len
  rcases hcs with ⟨ys, h1, h2, h3, h4⟩ | ⟨h1, h2, h3, h4, h5, h6⟩
  · generalize (w2.heap rptr).id_ = id at h1 h4
    have hmem : id ∈ w.reuse_ := by rw [h1]; simp
    have hr := hw.free_range id hmem
    rw [if_neg (by omega)] at hlen
    rw [h4, h2, h3, occupied_set_some _ _ _ (by omega) (hw.free_empty id hmem)]
    rw [h1] at hc
    simp only [List.length_append, List.length_singleton] at hc
    omega
  · rw [h5, h3, h4, occupied_set_some _ _ _ (by rw [length_resize]; omega)
      (by
        rw [getD_resize, if_pos (by omega)]
        apply getD_of_length_le
        split at hlen <;> omega),
      occupied_resize _ _ (by split at hlen <;> omega)]
    rw [h1] at hc
    simp only [List.length_nil] at hc ⊢
    omega

theorem count_ok_parse_response {X : extern_fns} {jp : jtree} {w : World}
    (hc : count_ok w) : count_ok (rpc_client.parse_response X jp w) := by
  by_cases hid : jp.find_val 1 "id" = 0
  · exact count_ok_congr (registry_parse_response_notify hid) hc
  · cases hs : w.rv_.getD (jp.get_uint (jp.find_val 1 "id")) none with
    | none => rw [parse_response_miss hid hs]; exact hc
    | some rptr =>
      have hreg := parse_response_hit_registry (X := X) hid hs
      simp only [World.registry, Prod.mk.injEq] at hreg
      obtain ⟨-, -, r3, r4, r5⟩ := hreg
      unfold count_ok at hc ⊢
      rw [r3, r4, r5]
      have := occupied_set_none _ _ _ hs
      simp only [List.length_append, List.length_singleton]
      omega

theorem count_ok_run {X : extern_fns} {o : op} {w w2 : World} (hw : registry_ok w)
    (hc : count_ok w) (h : o.run X w = some w2) : count_ok w2 := by
  cases o with
  | set_http_conn => cases h; exact hc
  | set_ws_conn => cases h; exact hc
  | send rptr =>
    obtain ⟨w1, h1, hreg, -⟩ := send_add_request h
    exact count_ok_congr hreg (count_ok_add_request hw hc h1)
  | add_request rptr => exact count_ok_add_request hw hc h
  | parse_response jp => cases h; exact count_ok_parse_response hc
  | add_notify rptr => cases h; exact count_ok_congr (registry_add_notify _ _) hc
  | remove_notify rptr => cases h; exact count_ok_congr (registry_remove_notify _ _) hc
  | write rptr r => cases h; exact count_ok_congr (registry_store _ _ _) hc

theorem count_ok_run_ops {X : extern_fns} (os : List op) {w w2 : World}
    (hw : registry_ok w) (hc : count_ok w) (h : run_ops X os w = some w2) : count_ok w2 := by
  induction os generalizing w with
  | nil => cases h; exact hc
  | cons o os ih =>
    unfold run_ops at h
    cases h1 : o.run X w with
    | none => rw [h1] at h; cases h
    | some w1 =>
      rw [h1] at h
      exact ih (registry_ok_run hw h1) (count_ok_run hw hc h1) h

/-- C19: in every state a fresh client reaches, with counter value `n = id_`, the
free list has no duplicates, every id on it lies in `1..n` and has an empty slot,
every id in `1..n` with an empty slot is on it, the slot array has length `n + 1`
when `n > 0` (and is empty when `n = 0`), and the number of occupied slots plus the
length of the free list is `n`. -/
theorem registry_well_formed (X : extern_fns) (w : World) (hr : reachable X w) :
    w.reuse_.Nodup ∧
    (∀ i ∈ w.reuse_, 1 ≤ i ∧ i ≤ w.id_ ∧ w.rv_.getD i none = none) ∧
    (∀ i, 1 ≤ i → i ≤ w.id_ → w.rv_.getD i none = none → i ∈ w.reuse_) ∧
    (0 < w.id_ → w.rv_.length = w.id_ + 1) ∧
    (w.id_ = 0 → w.rv_ = []) ∧
    occupied w.rv_ + w.reuse_.length = w.id_ := by
  have hw := registry_ok_of_reachable hr
  have hlen := hw.len
  obtain ⟨h0, os, hrun⟩ := hr
  have hc0 : count_ok (rpc_client.mk_new h0) := by
    simp [count_ok, occupied, rpc_client.mk_new]
  have hc : count_ok w := count_ok_run_ops os (registry_ok_mk_new h0) hc0 hrun
  refine ⟨hw.nodup, ?_, hw.empty_free, ?_, ?_, hc⟩
  · intro i hi
    exact ⟨(hw.free_range i hi).1, (hw.free_range i hi).2, hw.free_empty i hi⟩
  · intro hn
    rw [if_neg (by omega)] at hlen
    exact hlen
  · intro hn
    rw [if_pos hn] at hlen
    exact List.length_eq_zero.1 hlen

/-- Witness for `registry_well_formed`: the example state, with counter 3, slots of
ids 1 and 3 occupied and id 2 on the free list. -/
theorem registry_well_formed_witness :
    reachable ex_extern ex_world ∧
    (ex_world.id_ = 3 ∧ ex_world.rv_ = [none, some 0, none, some 3] ∧ ex_world.reuse_ = [2]) ∧
    occupied ex_world.rv_ + ex_world.reuse_.length = ex_world.id_ :=
  have hr : reachable ex_extern ex_world :=
    ⟨ex_heap, [.set_http_conn, .send 0, .send 2, .send 3, .parse_response (ex_doc_id 2)], rfl⟩
  ⟨hr, ⟨by decide, by decide, by decide⟩,
    (registry_well_formed ex_extern ex_world hr).2.2.2.2.2⟩

/-! ## The two outcomes of the response to a subscribe call -/

/-- C20 (as amended): the response to the subscribe call has one of two effects on
a signature subscription. If the document has an error object, code and message are
stored on the request, the callback is called once when the request has one that
casts to `rpc_sub_i<signature_subscribe>` (and no callback is called otherwise),
and the subscription map is unchanged. If it has no error object, no callback is
called; the request is entered in the subscription map under the value of `result`
when the document has a `result`, and map and request objects are unchanged when it
has none. -/
theorem subscribe_response_outcome (X : extern_fns) (jt : jtree) (rptr : Nat) (w : World)
    (hk : (w.heap rptr).kind = .signature_subscribe) :
    (jt.find_val 1 "error" ≠ 0 →
      (rpc_request.response X jt rptr w).smap_ = w.smap_ ∧
      (rpc_request.response X jt rptr w).heap rptr =
        { w.heap rptr with
          ec_ := to_int (jt.get_int (jt.find_val (jt.find_val 1 "error") "code")),
          emsg_ := jt.get_text (jt.find_val (jt.find_val 1 "error") "message") } ∧
      (rpc_request.response X jt rptr w).log = w.log ++ [event.response rptr] ++
        match (w.heap rptr).cb_ with
        | some cb =>
          if req_kind.signature_subscribe ∈ cb.ifaces then
            [event.on_response cb rptr { w.heap rptr with
              ec_ := to_int (jt.get_int (jt.find_val (jt.find_val 1 "error") "code")),
              emsg_ := jt.get_text (jt.find_val (jt.find_val 1 "error") "message") }]
          else []
        | none => []) ∧
    (jt.find_val 1 "error" = 0 →
      (rpc_request.response X jt rptr w).log = w.log ++ [event.response rptr] ∧
      (jt.find_val 1 "result" ≠ 0 →
        (rpc_request.response X jt rptr w).smap_ =
          smap_set w.smap_ (jt.get_uint (jt.find_val 1 "result")) rptr ∧
        smap_find (rpc_request.response X jt rptr w).smap_
          (jt.get_uint (jt.find_val 1 "result")) = some rptr) ∧
      (jt.find_val 1 "result" = 0 →
        (rpc_request.response X jt rptr w).smap_ = w.smap_ ∧
        (rpc_request.response X jt rptr w).heap = w.heap)) := by
  constructor
  · intro he
    rw [response_error_eq X jt rptr w he, hk, on_response_eq]
    refine ⟨rfl, ?_, ?_⟩
    · simp [World.store]
    · simp only [cb_events, World.store, World.emit, if_true]
  · intro he
    rw [subscribe_response_eq X jt rptr w hk he]
    by_cases hr : jt.find_val 1 "result" = 0
    · rw [sub_add_notify_absent jt rptr _ hr]
      exact ⟨rfl, fun h => absurd hr h, fun _ => ⟨rfl, rfl⟩⟩
    · rw [sub_add_notify_present jt rptr _ hr]
      exact ⟨rfl, fun _ => ⟨rfl, smap_find_set_same _ _ _⟩, fun h => absurd h hr⟩

set_option maxRecDepth 100000 in
/-- Witness for `subscribe_response_outcome`: the signature subscription at address
0 and the document `{"id":2,"result":55}`. -/
theorem subscribe_response_outcome_witness :
    (ex_world_sub.heap 0).kind = .signature_subscribe ∧
    ex_doc_subscribed.find_val 1 "error" = 0 ∧
    (rpc_request.response ex_extern ex_doc_subscribed 0 ex_world_sub).log =
      ex_world_sub.log ++ [event.response 0] :=
  ⟨by decide, by decide,
    ((subscribe_response_outcome ex_extern ex_doc_subscribed 0 ex_world_sub (by decide)).2
      (by decide)).1⟩

set_option maxRecDepth 100000 in
/-- Counterexample to C20 as stated: the signature subscription at address 3 has no
callback object and holds request id 1; the document
`{"id":1,"error":{"code":-32602,"message":"invalid params"}}` carries an error
object. The response handler runs and stores the code, the request is not entered
in the subscription map, and no callback is called. -/
theorem subscribe_error_counterexample :
    ex_world_sub_plain.rv_.getD 1 none = some 3 ∧
    (ex_world_sub_plain.heap 3).kind = .signature_subscribe ∧
    (ex_world_sub_plain.heap 3).cb_ = none ∧
    ex_doc_error.find_val 1 "error" ≠ 0 ∧
    (rpc_client.parse_response ex_extern ex_doc_error ex_world_sub_plain).log =
      ex_world_sub_plain.log ++ [event.response 3] ∧
    (((rpc_client.parse_response ex_extern ex_doc_error ex_world_sub_plain).log.drop
      ex_world_sub_plain.log.length).filter event.is_callback).length = 0 ∧
    ((rpc_client.parse_response ex_extern ex_doc_error ex_world_sub_plain).heap
      3).get_err_code = -32602 ∧
    (rpc_client.parse_response ex_extern ex_doc_error ex_world_sub_plain).smap_ = [] := by
  refine ⟨?_, ?_, ?_, ?_, ?_, ?_, ?_, ?_⟩ <;> decide

end pc
